import Mathlib

/-!
# Goldwarden agent: cipher-string codec, symmetric crypto engine and request gating

A shallow embedding of

* `agent/bitwarden/crypto/encstring.go` (cipher-string codec, `DecryptWith`, `EncryptWith`),
* `agent/actions/actions.go` (the authorization gates),
* `agent/actions/logins.go` and `agent/actions/browserbiometrics.go` (the handlers and the
  registry),

followed by theorems about them.  Go byte slices are lists of bytes, a `nil` slice and an
empty slice are both the empty list.  Go library code (`encoding/base64`, `strconv`,
`bytes`, `crypto/aes`, `crypto/cipher`, `crypto/hmac`) is either modelled from its
documented behaviour or, for the cryptographic primitives, taken as a parameter.
-/

namespace Goldwarden

/-! ## Bytes -/

deriving instance DecidableEq for Except

abbrev Byte := Fin 256
abbrev Bytes := List Byte

/-- Truncating conversion of a number to a byte. -/
def byteOfNat (n : Nat) : Byte := ⟨n % 256, Nat.mod_lt _ (by decide)⟩

/-- The byte `.`. -/
def dot : Byte := 46
/-- The byte `|`. -/
def pipe : Byte := 124
/-- The byte `=`, the base64 padding character. -/
def padChar : Byte := 61

/-- Go conversion `string(b)` of a byte slice: every byte becomes the character of the
same code. -/
def bytesToString (b : Bytes) : String := String.mk (b.map fun x => Char.ofNat x.val)

/-! ## `encoding/base64`, standard alphabet with padding -/

/-- The character of the standard base64 alphabet for a six-bit value. -/
def b64char (i : Nat) : Byte :=
  if i < 26 then byteOfNat (65 + i)
  else if i < 52 then byteOfNat (71 + i)
  else if i < 62 then byteOfNat (i - 4)
  else if i = 62 then 43
  else 47

/-- The six-bit value of a character of the standard base64 alphabet. -/
def b64val (c : Byte) : Option Nat :=
  if 65 ≤ c.val ∧ c.val ≤ 90 then some (c.val - 65)
  else if 97 ≤ c.val ∧ c.val ≤ 122 then some (c.val - 71)
  else if 48 ≤ c.val ∧ c.val ≤ 57 then some (c.val + 4)
  else if c.val = 43 then some 62
  else if c.val = 47 then some 63
  else none

/-- Modelled from the spec: `b64enc` is declared outside the given sources; the spec fixes
it as base64 "with standard alphabet and padding".  `b64encode` allocates
`EncodedLen(len(src))` bytes and fills them with the encoding of `src`. -/
def b64encode : Bytes → Bytes
  | [] => []
  | [a] => [b64char (a.val / 4), b64char (a.val % 4 * 16), padChar, padChar]
  | [a, b] =>
    [b64char (a.val / 4), b64char (a.val % 4 * 16 + b.val / 16), b64char (b.val % 16 * 4),
      padChar]
  | a :: b :: c :: rest =>
    b64char (a.val / 4) :: b64char (a.val % 4 * 16 + b.val / 16) ::
      b64char (b.val % 16 * 4 + c.val / 64) :: b64char (c.val % 64) :: b64encode rest

/-- The groups of four characters of a base64 text without line breaks: only the last group
may be padded; on any other input the decoder reports corrupt input. -/
def decodeQuanta : Bytes → Except String Bytes
  | c0 :: c1 :: c2 :: c3 :: rest =>
    match b64val c0, b64val c1 with
    | some v0, some v1 =>
      if rest = [] ∧ c2 = padChar ∧ c3 = padChar then
        .ok [byteOfNat (v0 * 4 + v1 / 16)]
      else
        match b64val c2 with
        | some v2 =>
          if rest = [] ∧ c3 = padChar then
            .ok [byteOfNat (v0 * 4 + v1 / 16), byteOfNat (v1 % 16 * 16 + v2 / 4)]
          else
            match b64val c3 with
            | some v3 =>
              match decodeQuanta rest with
              | .ok t =>
                .ok (byteOfNat (v0 * 4 + v1 / 16) :: byteOfNat (v1 % 16 * 16 + v2 / 4) ::
                  byteOfNat (v2 % 4 * 64 + v3) :: t)
              | .error e => .error e
            | none => .error "illegal base64 data"
        | none => .error "illegal base64 data"
    | _, _ => .error "illegal base64 data"
  | [] => .ok []
  | _ => .error "illegal base64 data"

/-- Whether a byte is a line break, CR or LF. -/
def isLineBreak (c : Byte) : Bool := c = 10 || c = 13

/-- Modelled from the spec: decoding with `b64enc` (standard alphabet, padding), which is
declared outside the given sources.  As `Decode` of the Go library does, line breaks (CR
and LF) in the input are skipped; on corrupt input `b64decode` returns `nil` and the
error. -/
def b64decode (src : Bytes) : Except String Bytes :=
  decodeQuanta (src.filter fun c => !isLineBreak c)

/-! ## `strconv.Itoa`, `strconv.Atoi`, `bytes.IndexByte`, `bytes.Split` -/

/-- Decimal digits of a natural number, most significant first. -/
def natDigits (n : Nat) : Bytes := (Nat.toDigits 10 n).map fun c => byteOfNat c.toNat

/-- Go `strconv.Itoa`: the decimal text of an integer. -/
def Itoa (i : Int) : Bytes :=
  match i with
  | Int.ofNat n => natDigits n
  | Int.negSucc n => 45 :: natDigits (n + 1)

/-- Value of a run of ASCII digits, `none` when a byte is not a digit. -/
def parseDigits : Bytes → Nat → Option Nat
  | [], acc => some acc
  | c :: rest, acc =>
    if 48 ≤ c.val ∧ c.val ≤ 57 then parseDigits rest (acc * 10 + (c.val - 48)) else none

/-- Go `strconv.Atoi` on a 64-bit platform: an optional sign, then decimal digits only;
a value outside the range of `int` is an error. -/
def Atoi (s : Bytes) : Except String Int :=
  match s with
  | [] => .error "strconv.Atoi: invalid syntax"
  | c :: rest =>
    let neg := decide (c = 45)
    let ds := if c = 43 ∨ c = 45 then rest else s
    if ds = [] then .error "strconv.Atoi: invalid syntax"
    else
      match parseDigits ds 0 with
      | none => .error "strconv.Atoi: invalid syntax"
      | some n =>
        if neg then
          if n ≤ 2 ^ 63 then .ok (-(n : Int)) else .error "strconv.Atoi: value out of range"
        else
          if n < 2 ^ 63 then .ok (n : Int) else .error "strconv.Atoi: value out of range"

/-- Go `bytes.IndexByte`: index of the first occurrence of `c`, or `-1`. -/
def IndexByte (b : Bytes) (c : Byte) : Int :=
  if c ∈ b then (b.indexOf c : Nat) else -1

/-- Go `bytes.Split` with a one-byte separator: all pieces between separators. -/
def Split (sep : Byte) : Bytes → List Bytes
  | [] => [[]]
  | b :: rest =>
    if b = sep then [] :: Split sep rest
    else
      match Split sep rest with
      | [] => [[b]]
      | p :: ps => (b :: p) :: ps

/-! ## The cipher string -/

/-- Go `EncStringType`, an `int`. -/
abbrev EncStringType := Int

def AesCbc256_B64 : EncStringType := 0
def AesCbc128_HmacSha256_B64 : EncStringType := 1
def AesCbc256_HmacSha256_B64 : EncStringType := 2
def Rsa2048_OaepSha256_B64 : EncStringType := 3
def Rsa2048_OaepSha1_B64 : EncStringType := 4
def Rsa2048_OaepSha256_HmacSha256_B64 : EncStringType := 5
def Rsa2048_OaepSha1_HmacSha256_B64 : EncStringType := 6

/-- Go `EncStringType.HasMAC`. -/
def HasMAC (t : EncStringType) : Bool := decide (t ≠ AesCbc256_B64)

/-- Go `EncString`; the field `Type` is called `Typ` here. -/
structure EncString where
  Typ : EncStringType
  IV : Bytes
  CT : Bytes
  MAC : Bytes
  deriving DecidableEq, Repr

/-- The zero value `EncString{}`, a fresh cipher string. -/
def EncString.zero : EncString := { Typ := 0, IV := [], CT := [], MAC := [] }

/-- Go `(*EncString).UnmarshalText`: the receiver after the call and the returned error
(`none` is `nil`). -/
def EncString.UnmarshalText (s : EncString) (data : Bytes) : EncString × Option String :=
  if data.length = 0 then (s, none)
  else
    let i := IndexByte data dot
    if i < 0 then (s, some "invalid cipher string format")
    else
      let typStr := data.take i.toNat
      match Atoi typStr with
      | .error _ => (s, some "invalid cipher string type")
      | .ok t =>
        let s := { s with Typ := t }
        if s.Typ = AesCbc128_HmacSha256_B64 ∨ s.Typ = AesCbc256_HmacSha256_B64 ∨
            s.Typ = AesCbc256_B64 then
          let data := data.drop (i.toNat + 1)
          let parts := Split pipe data
          if parts.length ≠ 3 then (s, some "invalid cipher string format")
          else
            match b64decode (parts.getD 0 []) with
            | .error e => ({ s with IV := [] }, some e)
            | .ok iv =>
              let s := { s with IV := iv }
              match b64decode (parts.getD 1 []) with
              | .error e => ({ s with CT := [] }, some e)
              | .ok ct =>
                let s := { s with CT := ct }
                if HasMAC s.Typ then
                  match b64decode (parts.getD 2 []) with
                  | .error e => ({ s with MAC := [] }, some e)
                  | .ok mac => ({ s with MAC := mac }, none)
                else (s, none)
        else (s, some "invalid cipher string type")

/-- Go `EncString.MarshalText`: the text and the returned error (always `nil`). -/
def EncString.MarshalText (s : EncString) : Bytes × Option String :=
  if s.Typ = 0 then ([], none)
  else
    let buf := Itoa s.Typ ++ [dot] ++ b64encode s.IV ++ [pipe] ++ b64encode s.CT
    let buf := if HasMAC s.Typ then buf ++ [pipe] ++ b64encode s.MAC else buf
    (buf, none)

/-- Go `EncString.IsNull`. -/
def EncString.IsNull (s : EncString) : Bool :=
  s.IV.length = 0 && s.CT.length = 0 && s.MAC.length = 0

/-! ## The symmetric crypto engine -/

/-- Result of a Go call that returns a value, returns an error, or panics (`abort`). -/
inductive Res (α : Type) where
  | ok (a : α)
  | err (e : String)
  | abort (e : String)
  deriving DecidableEq, Repr

/-- Modelled from the spec: the key buffer type is declared outside the given sources.
"SecretBuffer. Holds a byte run of key material ... accessed only through a scoped `open()`
that yields a borrow"; `content = none` is a buffer whose `Open` fails. -/
structure SecretBuffer where
  content : Option Bytes
  deriving DecidableEq, Repr

/-- Modelled from the spec: `Open` on a key buffer yields the key bytes (the source reads
them with `Data()` or `Bytes()`) or fails ("Secret buffer open failed"). -/
def SecretBuffer.Open (b : SecretBuffer) : Except String Bytes :=
  match b.content with
  | some d => .ok d
  | none => .error "secret buffer open failed"

/-- Modelled from the spec: "SymmetricEncryptionKey. A pair
`(encKey: SecretBuffer[32], macKey: SecretBuffer[32])`"; the type is declared outside the
given sources. -/
structure SymmetricEncryptionKey where
  encKey : SecretBuffer
  macKey : SecretBuffer
  deriving DecidableEq, Repr

/-- The primitives of the Go library the engine is built on: the AES block function and its
inverse (`crypto/aes`; key, then one block) and HMAC-SHA256 (`crypto/hmac` over
`crypto/sha256`; key, then message). -/
structure Primitives where
  aesEncrypt : Bytes → Bytes → Bytes
  aesDecrypt : Bytes → Bytes → Bytes
  hmacSha256 : Bytes → Bytes → Bytes

/-- What is used of the primitives: AES maps a 16-byte block to a 16-byte block and
decryption undoes encryption under the same key; an HMAC-SHA256 tag has 32 bytes. -/
structure Primitives.Lawful (P : Primitives) : Prop where
  aes_length : ∀ key block, block.length = 16 → (P.aesEncrypt key block).length = 16
  aes_inverse : ∀ key block, block.length = 16 → P.aesDecrypt key (P.aesEncrypt key block) = block
  hmac_length : ∀ key msg, (P.hmacSha256 key msg).length = 32

/-- Go `aes.BlockSize`. -/
def BlockSize : Nat := 16

/-- Go `aes.NewCipher`: the key must have 16, 24 or 32 bytes. -/
def NewCipher (key : Bytes) : Except String Bytes :=
  if key.length = 16 ∨ key.length = 24 ∨ key.length = 32 then .ok key
  else .error ("crypto/aes: invalid key size " ++ toString key.length)

/-- Exclusive or of two bytes. -/
def bxor (a b : Byte) : Byte := ⟨a.val ^^^ b.val, @Nat.xor_lt_two_pow a.val b.val 8 a.isLt b.isLt⟩

/-- Exclusive or of two byte runs. -/
def xorBytes (a b : Bytes) : Bytes := List.zipWith bxor a b

/-- The blocks of CBC decryption: `n` blocks of `src`, `prev` is the preceding ciphertext
block (the IV at the start). -/
def cbcDecryptLoop (P : Primitives) (key : Bytes) : Nat → Bytes → Bytes → Bytes
  | 0, _, _ => []
  | n + 1, prev, src =>
    xorBytes (P.aesDecrypt key (src.take BlockSize)) prev ++
      cbcDecryptLoop P key n (src.take BlockSize) (src.drop BlockSize)

/-- Go `cipher.NewCBCDecrypter(block, iv)` followed by `CryptBlocks(dst, src)` with
`len(dst) = len(src)`: the first panics when the IV is not one block long, the second when
the input is not a whole number of blocks. -/
def CBCDecrypt (P : Primitives) (key iv src : Bytes) : Res Bytes :=
  if iv.length ≠ BlockSize then .abort "cipher.NewCBCDecrypter: IV length must equal block size"
  else if src.length % BlockSize ≠ 0 then .abort "crypto/cipher: input not full blocks"
  else .ok (cbcDecryptLoop P key (src.length / BlockSize) iv src)

/-- The blocks of CBC encryption: `n` blocks of `src`, `prev` is the preceding ciphertext
block (the IV at the start). -/
def cbcEncryptLoop (P : Primitives) (key : Bytes) : Nat → Bytes → Bytes → Bytes
  | 0, _, _ => []
  | n + 1, prev, src =>
    P.aesEncrypt key (xorBytes (src.take BlockSize) prev) ++
      cbcEncryptLoop P key n (P.aesEncrypt key (xorBytes (src.take BlockSize) prev))
        (src.drop BlockSize)

/-- Go `cipher.NewCBCEncrypter(block, iv)` followed by `CryptBlocks(dst, src)` with
`len(dst) = len(src)`, with the same panics as the decrypter. -/
def CBCEncrypt (P : Primitives) (key iv src : Bytes) : Res Bytes :=
  if iv.length ≠ BlockSize then .abort "cipher.NewCBCEncrypter: IV length must equal block size"
  else if src.length % BlockSize ≠ 0 then .abort "crypto/cipher: input not full blocks"
  else .ok (cbcEncryptLoop P key (src.length / BlockSize) iv src)

/-- Modelled from the spec: `padPKCS7` is defined outside the given sources; "PKCS#7-pad to
16-byte blocks": between one and `size` bytes are appended, each holding their number. -/
def padPKCS7 (src : Bytes) (size : Nat) : Bytes :=
  src ++ List.replicate (size - src.length % size) (byteOfNat (size - src.length % size))

/-- Modelled from the spec: `unpadPKCS7` is defined outside the given sources; "PKCS#7-unpad;
reject malformed padding with `BadPadding`": the last byte gives the number of padding
bytes, which must all hold that number. -/
def unpadPKCS7 (src : Bytes) (size : Nat) : Except String Bytes :=
  match src.getLast? with
  | none => .error "bad padding"
  | some last =>
    if src.length % size ≠ 0 ∨ last.val = 0 ∨ size < last.val ∨ src.length < last.val then
      .error "bad padding"
    else if src.drop (src.length - last.val) ≠ List.replicate last.val last then
      .error "bad padding"
    else .ok (src.take (src.length - last.val))

/-- Modelled from the spec: `isMacValid` is defined outside the given sources; "compute
`HMAC-SHA256(macKey, iv ∥ ct)` and compare against `cs.mac` in constant time". -/
def isMacValid (P : Primitives) (message messageMAC key : Bytes) : Bool :=
  decide (messageMAC = P.hmacSha256 key message)

/-- The MAC check of `DecryptWith`, made for the HMAC suite only: the error it returns. -/
def macCheck (P : Primitives) (s : EncString) (macKeyData : Bytes) : Option String :=
  if s.Typ = AesCbc256_HmacSha256_B64 then
    if s.MAC.length = 0 ∨ macKeyData.length = 0 then
      some "decrypt: cipher string type expects a MAC"
    else if ¬ isMacValid P (s.IV ++ s.CT) s.MAC macKeyData then some "decrypt: MAC mismatch"
    else none
  else none

/-- Go `DecryptWith`.  The `%q` rendering of the type in the error text is abbreviated to
its decimal text. -/
def DecryptWith (P : Primitives) (s : EncString) (key : SymmetricEncryptionKey) : Res Bytes :=
  match key.encKey.Open with
  | .error e => .err e
  | .ok encKeyData =>
    match key.macKey.Open with
    | .error e => .err e
    | .ok macKeyData =>
      match NewCipher encKeyData with
      | .error e => .err e
      | .ok block =>
        if s.Typ = AesCbc256_B64 ∨ s.Typ = AesCbc256_HmacSha256_B64 then
          match macCheck P s macKeyData with
          | some e => .err e
          | none =>
            match CBCDecrypt P block s.IV s.CT with
            | .abort e => .abort e
            | .err e => .err e
            | .ok dst =>
              match unpadPKCS7 dst BlockSize with
              | .error e => .err e
              | .ok dst => .ok dst
        else .err ("decrypt: unsupported cipher type " ++ toString s.Typ)

/-- Go `io.ReadFull(reader, buf)` for a buffer of `n` bytes: the bytes read, or an error
when the reader fails or gives fewer bytes.  The reader gives, for a request of `n` bytes,
the bytes it delivers or its error. -/
def ReadFull (reader : Nat → Except String Bytes) (n : Nat) : Except String Bytes :=
  match reader n with
  | .error e => .error e
  | .ok b => if b.length = n then .ok b else .error "unexpected EOF"

/-- Go `EncryptWith`, with the random source `cryptorand.Reader` as the argument `reader`.
The result is the returned pair: the cipher string and the error (`none` is `nil`).  The
`%q` rendering of the type in the error text is abbreviated to its decimal text. -/
def EncryptWith (P : Primitives) (reader : Nat → Except String Bytes) (data : Bytes)
    (typ : EncStringType) (key : SymmetricEncryptionKey) : Res (EncString × Option String) :=
  match key.encKey.Open with
  | .error e => .ok (EncString.zero, some e)
  | .ok encKeyData =>
    match key.macKey.Open with
    | .error e => .ok (EncString.zero, some e)
    | .ok macKeyData =>
      let s := EncString.zero
      if typ = AesCbc256_B64 ∨ typ = AesCbc256_HmacSha256_B64 then
        let s := { s with Typ := typ }
        let data := padPKCS7 data BlockSize
        match NewCipher encKeyData with
        | .error e => .ok (s, some e)
        | .ok block =>
          match ReadFull reader BlockSize with
          | .error e => .ok (s, some e)
          | .ok iv =>
            let s := { s with IV := iv }
            match CBCEncrypt P block s.IV data with
            | .abort e => .abort e
            | .err e => .err e
            | .ok ct =>
              let s := { s with CT := ct }
              if typ = AesCbc256_HmacSha256_B64 then
                if macKeyData.length = 0 then
                  .ok (s, some "encrypt: cipher string type expects a MAC")
                else .ok ({ s with MAC := P.hmacSha256 macKeyData (s.IV ++ s.CT) }, none)
              else .ok (s, none)
      else .ok (s, some ("encrypt: unsupported cipher type " ++ toString s.Typ))

/-- A small instance of the primitives, for evaluating the engine on concrete inputs: the
block function is the exclusive or with the first key byte, the tag is 32 copies of the
exclusive or of all key and message bytes. -/
def xorPrimitives : Primitives where
  aesEncrypt key block := block.map (bxor (key.headD 0))
  aesDecrypt key block := block.map (bxor (key.headD 0))
  hmacSha256 key msg := List.replicate 32 ((key ++ msg).foldl bxor 0)

/-- A key with 32 encryption-key bytes and 32 MAC-key bytes, for concrete evaluations. -/
def sampleKey : SymmetricEncryptionKey where
  encKey := ⟨some (List.replicate 32 7)⟩
  macKey := ⟨some (List.replicate 32 9)⟩

/-- A random source that delivers zero bytes, for concrete evaluations. -/
def zeroReader (n : Nat) : Except String Bytes := .ok (List.replicate n 0)

/-- The byte run `m` with bit `bit` of its byte `i` flipped. -/
def flipBit : Bytes → Nat → Nat → Bytes
  | [], _, _ => []
  | b :: rest, 0, bit => bxor b (byteOfNat (2 ^ (bit % 8))) :: rest
  | b :: rest, i + 1, bit => b :: flipBit rest i bit

/-- The cipher string that `EncryptWith xorPrimitives zeroReader [1, 2, 3]` gives for the
HMAC suite under `sampleKey`. -/
def sampleCipher : EncString where
  Typ := AesCbc256_HmacSha256_B64
  IV := List.replicate 16 0
  CT := [6, 5, 4, 10, 10, 10, 10, 10, 10, 10, 10, 10, 10, 10, 10, 10]
  MAC := List.replicate 32 13

/-- The same ciphertext as a string of the suite without MAC. -/
def sampleCipherNoMac : EncString where
  Typ := AesCbc256_B64
  IV := List.replicate 16 0
  CT := [6, 5, 4, 10, 10, 10, 10, 10, 10, 10, 10, 10, 10, 10, 10, 10]
  MAC := []

/-! ## The asymmetric crypto engine -/

/-- Modelled from the spec: "AsymmetricEncryptionKey. Holds a PKCS#8-encoded RSA-2048 private
key in a SecretBuffer"; the type is declared outside the given sources. -/
structure AsymmetricEncryptionKey where
  encKey : SecretBuffer
  deriving DecidableEq, Repr

/-- The RSA parts of the Go library that `DecryptWithAsymmetric` calls:
`x509.ParsePKCS8PrivateKey` (on success `some` RSA private key, or `none` for a key of
another algorithm) and `rsa.DecryptOAEP` with SHA-1 (private key, then ciphertext). -/
structure RsaPrimitives where
  ParsePKCS8PrivateKey : Bytes → Except String (Option Bytes)
  DecryptOAEP : Bytes → Bytes → Except String Bytes

/-- Go `DecryptWithAsymmetric`.  The slice expression `s[2:]` panics when `s` has fewer
than two bytes, the type assertion `parsedKey.(*rsa.PrivateKey)` when the key is not an RSA
key. -/
def DecryptWithAsymmetric (R : RsaPrimitives) (s : Bytes)
    (asymmetrickey : AsymmetricEncryptionKey) : Res Bytes :=
  match asymmetrickey.encKey.Open with
  | .error e => .err e
  | .ok key =>
    match R.ParsePKCS8PrivateKey key with
    | .error e => .err e
    | .ok parsedKey =>
      if s.length < 2 then .abort "runtime error: slice bounds out of range"
      else
        match b64decode (s.drop 2) with
        | .error e => .err e
        | .ok rawKey =>
          match parsedKey with
          | none => .abort "interface conversion: interface is not *rsa.PrivateKey"
          | some privateKey =>
            match R.DecryptOAEP privateKey rawKey with
            | .error e => .err e
            | .ok res => .ok res

/-- A small instance of the RSA parts, for evaluating the engine on concrete inputs: every
key parses as an RSA key, and decryption returns the ciphertext. -/
def idRsa : RsaPrimitives where
  ParsePKCS8PrivateKey key := .ok (some key)
  DecryptOAEP _ rawKey := .ok rawKey

/-- An asymmetric key whose buffer opens. -/
def sampleAsymmetricKey : AsymmetricEncryptionKey := { encKey := ⟨some [1, 2, 3]⟩ }

/-! ## The agent: messages, collaborators and state -/

/-- Modelled from the spec: `sockets.CallingContext` is declared outside the given sources;
"CallingContext. Immutable per-request record: `userName`, `processName`,
`parentProcessName`, `grandParentProcessName`, ...". -/
structure CallingContext where
  UserName : String
  ProcessName : String
  ParentProcessName : String
  GrandParentProcessName : String
  deriving DecidableEq, Repr

/-- Modelled from the spec: "`sessionType ∈ {AccessVault, SSHKey, PinSession,
BrowserBiometrics}`"; the type is declared outside the given sources. -/
inductive SessionType where
  | AccessVault
  | SSHKey
  | PinSession
  | BrowserBiometrics
  deriving DecidableEq, Repr

/-- Go `messages.DecryptedLoginCipher`, with the fields the handlers fill. -/
structure DecryptedLoginCipher where
  Name : String
  Username : String
  Password : String
  UUID : String
  OrgaizationID : String
  Notes : String
  TwoFactorCode : String
  deriving DecidableEq, Repr

/-- The payloads of IPC messages that the handlers read and write. -/
inductive Payload where
  | GetLoginRequest (UUID OrgId Name Username : String)
  | ListLoginsRequest
  | GetBiometricsKeyRequest
  | ActionResponse (Success : Bool) (Message : String)
  | GetLoginResponse (Found : Bool) (Result : DecryptedLoginCipher)
  | GetLoginsResponse (Found : Bool) (Result : List DecryptedLoginCipher)
  | GetBiometricsKeyResponse (Key : String)
  deriving DecidableEq, Repr

/-- Modelled from the spec: an IPC message is "a self-describing payload whose first field is
a type tag"; here the message is its payload. -/
abbrev IPCMessage := Payload

/-- The type tag of a message. -/
inductive IPCMessageType where
  | GetLoginRequest
  | ListLoginsRequest
  | GetBiometricsKeyRequest
  | ActionResponse
  | GetLoginResponse
  | GetLoginsResponse
  | GetBiometricsKeyResponse
  deriving DecidableEq, Repr

/-- Modelled from the spec: `messages.MessageTypeForEmptyPayload`, the type tag of a payload
record. -/
def MessageTypeForEmptyPayload : Payload → IPCMessageType
  | .GetLoginRequest _ _ _ _ => .GetLoginRequest
  | .ListLoginsRequest => .ListLoginsRequest
  | .GetBiometricsKeyRequest => .GetBiometricsKeyRequest
  | .ActionResponse _ _ => .ActionResponse
  | .GetLoginResponse _ _ => .GetLoginResponse
  | .GetLoginsResponse _ _ => .GetLoginsResponse
  | .GetBiometricsKeyResponse _ => .GetBiometricsKeyResponse

/-- Modelled from the spec: `messages.IPCMessageFromPayload` wraps a payload record into a
message; for the records above the wrapping does not fail. -/
def IPCMessageFromPayload (p : Payload) : Res IPCMessage := .ok p

/-- A login of the vault: its identifier, organization, and encrypted fields (`Notes` is a
pointer in the source and may be `nil`). -/
structure Login where
  ID : String
  OrganizationID : Option String
  Name : EncString
  Username : EncString
  Password : EncString
  Totp : EncString
  Notes : Option EncString
  deriving DecidableEq, Repr

/-- The vault, whose code is outside the given sources, by what its operations return:
`GetLogins()`, `GetLoginByFilter(uuid, orgId, name, username)`, and
`login.GetKeyForCipher(*vault.Keyring)`. -/
structure Vault where
  GetLogins : List Login
  GetLoginByFilter : String → String → String → String → Except String Login
  GetKeyForCipher : Login → Except String SymmetricEncryptionKey

/-- The collaborators of the handlers, whose code is outside the given sources, by what they
return during one request: the config (`TryUnlock` returns the error `tryUnlock`, `none`
is `nil`), the remote sync, the session manager, the OS-auth backend, the consent
prompter, the TOTP generator at the current time, and the primitives of the crypto
engine. -/
structure Env where
  prims : Primitives
  vault : Vault
  tryUnlock : Option String
  GetMasterPasswordHash : Except String Bytes
  GetToken : Except String String
  GetUserSymmetricKey : Except String Bytes
  DoFullSync : Option String
  GetMasterKey : Except String Bytes
  GetPermission : SessionType → CallingContext → Except String Bool
  CheckBiometrics : SessionType → Bool
  GetApproval : String → String → Except String Bool
  GenerateCode : String → Except String String

/-- A call to a collaborator, or an output, as recorded in the trace of a request. -/
inductive Event where
  | IsLocked
  | TryUnlock
  | GetToken
  | RefreshToken
  | GetUserSymmetricKey
  | DoFullSync
  | CreatePinSession (ctx : CallingContext)
  | GetMasterPasswordHash
  | GetPermission (t : SessionType) (ctx : CallingContext)
  | VerifyPinSession (ctx : CallingContext)
  | CheckBiometrics (t : SessionType)
  | GetApproval (title body : String)
  | GetMasterKey
  | GetLoginByFilter (UUID OrgId Name Username : String)
  | GetKeyForCipher (id : String)
  | GetLogins
  | GenerateCode (secret : String)
  | Println (s : String)
  | Warn (s : String)
  | FreeOSMemory
  deriving DecidableEq, Repr

/-- The state a request runs in: whether the config is locked, the callers with a valid PIN
session, and the trace of the calls made so far. -/
structure World where
  locked : Bool
  pinSessions : List CallingContext
  trace : List Event
  deriving DecidableEq, Repr

/-- Record an event at the end of the trace. -/
def World.log (w : World) (e : Event) : World := { w with trace := w.trace ++ [e] }

/-- Go `Action`: a handler gets the request, the config and vault (here with the other
collaborators in `Env`) and the calling context, and returns a message or an error; the
state is passed through. -/
abbrev Action := IPCMessage → Env → CallingContext → World → Res IPCMessage × World

/-- Modelled from the spec: `cfg.TryUnlock(vault)`; "unlock→locked=false". -/
def TryUnlock (env : Env) (w : World) : Option String × World :=
  match env.tryUnlock with
  | none => (none, { w.log .TryUnlock with locked := false })
  | some e => (some e, w.log .TryUnlock)

/-- Modelled from the spec: "`CreatePinSession(ctx)` → unconditionally installs a
`PinSession` record". -/
def CreatePinSession (ctx : CallingContext) (w : World) : World :=
  { w.log (.CreatePinSession ctx) with pinSessions := ctx :: w.pinSessions }

/-- Modelled from the spec: "`VerifyPinSession(ctx)` → reports presence of a non-expired
`PinSession`". -/
def VerifyPinSession (ctx : CallingContext) (w : World) : Bool × World :=
  (decide (ctx ∈ w.pinSessions), w.log (.VerifyPinSession ctx))

/-! ## `actions.go` -/

/-- Go `ActionsRegistry`: the table from message types to actions, latest registration
first. -/
structure ActionsRegistry where
  actions : List (IPCMessageType × Action)

/-- Go `newActionsRegistry`. -/
def newActionsRegistry : ActionsRegistry := { actions := [] }

/-- Go `(*ActionsRegistry).Register`. -/
def ActionsRegistry.Register (registry : ActionsRegistry) (messageType : IPCMessageType)
    (action : Action) : ActionsRegistry :=
  { actions := (messageType, action) :: registry.actions }

/-- Go `(*ActionsRegistry).Get`; `none` is `ok = false`. -/
def ActionsRegistry.Get (registry : ActionsRegistry) (messageType : IPCMessageType) :
    Option Action :=
  (registry.actions.find? fun e => decide (e.1 = messageType)).map fun e => e.2

/-- Go `ensureIsLoggedIn`. -/
def ensureIsLoggedIn (action : Action) : Action := fun request env ctx w =>
  let w := w.log .GetMasterPasswordHash
  match env.GetMasterPasswordHash with
  | .error _ => (IPCMessageFromPayload (.ActionResponse false "Not logged in"), w)
  | .ok hash =>
    if hash.length = 0 then (IPCMessageFromPayload (.ActionResponse false "Not logged in"), w)
    else action request env ctx w

/-- Go `sync`. -/
def sync (env : Env) (w : World) : Bool × World :=
  let w := w.log .GetToken
  match env.GetToken with
  | .ok accessToken =>
    if accessToken ≠ "" then
      let w := w.log .RefreshToken
      let w := w.log .GetUserSymmetricKey
      match env.GetUserSymmetricKey with
      | .error _ => (false, w)
      | .ok _ =>
        let w := w.log .DoFullSync
        match env.DoFullSync with
        | some _ => (false, w)
        | none => (true, w)
    else (true, w)
  | .error _ => (true, w)

/-- Go `ensureIsNotLocked`.  `err.Error()` on a `nil` error is a nil dereference, a
panic. -/
def ensureIsNotLocked (action : Action) : Action := fun request env ctx w =>
  let w := w.log .IsLocked
  if w.locked then
    let (err, w) := TryUnlock env w
    let (success, w) := sync env w
    if err ≠ none ∨ ¬ success then
      match err with
      | some e => (IPCMessageFromPayload (.ActionResponse false e), w)
      | none => (.abort "runtime error: invalid memory address or nil pointer dereference", w)
    else action request env ctx (CreatePinSession ctx w)
  else action request env ctx w

/-- Go `ensureBiometricsAuthorized`. -/
def ensureBiometricsAuthorized (approvalType : SessionType) (action : Action) : Action :=
  fun request env ctx w =>
    let w := w.log (.GetPermission approvalType ctx)
    match env.GetPermission approvalType ctx with
    | .error _ =>
      (IPCMessageFromPayload (.ActionResponse false "Polkit authorization failed required"), w)
    | .ok permission =>
      if ¬ permission then
        (IPCMessageFromPayload (.ActionResponse false "Polkit authorization failed required"),
          w)
      else action request env ctx w

/-- Go `ensureEverything`. -/
def ensureEverything (approvalType : SessionType) (action : Action) : Action :=
  ensureIsNotLocked (ensureIsLoggedIn (ensureBiometricsAuthorized approvalType action))

/-! ## `logins.go` -/

/-- A block `if !field.IsNull() { v, err := crypto.DecryptWith(field, key); if err == nil
{ target = string(v) } }` of `handleGetLoginCipher`: the value of the target after the
block (`old` when the field is null or does not decrypt), or the panic of `DecryptWith`. -/
def decryptInto (P : Primitives) (field : EncString) (key : SymmetricEncryptionKey)
    (old : String) : Except String String :=
  if ¬ field.IsNull then
    match DecryptWith P field key with
    | .ok v => .ok (bytesToString v)
    | .err _ => .ok old
    | .abort e => .error e
  else .ok old

/-- The block of `handleGetLoginCipher` for the TOTP seed: the two-factor code after the
block and the state (with what was printed), or the panic of `DecryptWith`. -/
def decryptTotp (env : Env) (field : EncString) (key : SymmetricEncryptionKey) (old : String)
    (w : World) : Except String String × World :=
  if ¬ field.IsNull then
    match DecryptWith env.prims field key with
    | .ok decryptedTotp =>
      let secret := String.mk ((bytesToString decryptedTotp).data.filter fun ch => ch ≠ ' ')
      let w := w.log (.GenerateCode secret)
      match env.GenerateCode secret with
      | .ok code => (.ok code, w)
      | .error e => (.ok old, w.log (.Println e))
    | .err _ => (.ok old, w.log (.Println ""))
    | .abort e => (.error e, w)
  else (.ok old, w)

/-- The text of the consent prompt of `handleGetLoginCipher`. -/
def getLoginPrompt (ctx : CallingContext) (username name : String) : String :=
  ctx.UserName ++ " on " ++ ctx.GrandParentProcessName ++ ">" ++ ctx.ParentProcessName ++ ">" ++
    ctx.ProcessName ++ " is trying to access credentials for user " ++ username ++
    " on entry " ++ name

/-- Go `handleGetLoginCipher`.  The type assertion on the parsed payload panics for a
request that is not a `GetLoginRequest`. -/
def handleGetLoginCipher : Action := fun request env ctx w =>
  match request with
  | .GetLoginRequest UUID OrgId Name Username =>
    let w := w.log (.GetLoginByFilter UUID OrgId Name Username)
    match env.vault.GetLoginByFilter UUID OrgId Name Username with
    | .error _ => (IPCMessageFromPayload (.ActionResponse false "login not found"), w)
    | .ok login =>
      let w := w.log (.GetKeyForCipher login.ID)
      match env.vault.GetKeyForCipher login with
      | .error _ =>
        (IPCMessageFromPayload (.ActionResponse false "could not get cipher key"), w)
      | .ok cipherKey =>
        let decryptedLogin : DecryptedLoginCipher :=
          { Name := "NO NAME FOUND", Username := "", Password := "", UUID := login.ID,
            OrgaizationID := login.OrganizationID.getD "", Notes := "", TwoFactorCode := "" }
        match decryptInto env.prims login.Name cipherKey decryptedLogin.Name with
        | .error e => (.abort e, w)
        | .ok name =>
          let decryptedLogin := { decryptedLogin with Name := name }
          match decryptInto env.prims login.Username cipherKey decryptedLogin.Username with
          | .error e => (.abort e, w)
          | .ok username =>
            let decryptedLogin := { decryptedLogin with Username := username }
            match decryptInto env.prims login.Password cipherKey decryptedLogin.Password with
            | .error e => (.abort e, w)
            | .ok password =>
              let decryptedLogin := { decryptedLogin with Password := password }
              match decryptInto env.prims (login.Notes.getD EncString.zero) cipherKey
                  decryptedLogin.Notes with
              | .error e => (.abort e, w)
              | .ok notes =>
                let decryptedLogin := { decryptedLogin with Notes := notes }
                match decryptTotp env login.Totp cipherKey decryptedLogin.TwoFactorCode w with
                | (.error e, w) => (.abort e, w)
                | (.ok code, w) =>
                  let decryptedLogin := { decryptedLogin with TwoFactorCode := code }
                  let body := getLoginPrompt ctx decryptedLogin.Username decryptedLogin.Name
                  let w := w.log (.GetApproval "Approve Credential Access" body)
                  match env.GetApproval "Approve Credential Access" body with
                  | .ok true =>
                    (IPCMessageFromPayload (.GetLoginResponse true decryptedLogin), w)
                  | _ => (IPCMessageFromPayload (.ActionResponse false "not approved"), w)
  | _ => (.abort "interface conversion: payload is not messages.GetLoginRequest", w)

/-- The text of the consent prompt of `handleListLoginsRequest`. -/
def listLoginsPrompt (ctx : CallingContext) : String :=
  ctx.UserName ++ " on " ++ ctx.GrandParentProcessName ++ ">" ++ ctx.ParentProcessName ++ ">" ++
    ctx.ProcessName ++ " is trying to list credentials (name & username)"

/-- The loop of `handleListLoginsRequest` over the logins still to visit, with the entries
collected so far: the final entries and state, or the panic of `DecryptWith`. -/
def listLoginsLoop (env : Env) :
    List Login → List DecryptedLoginCipher → World →
      Except String (List DecryptedLoginCipher) × World
  | [], decryptedLoginCiphers, w => (.ok decryptedLoginCiphers, w)
  | login :: rest, decryptedLoginCiphers, w =>
    let w := w.log (.GetKeyForCipher login.ID)
    match env.vault.GetKeyForCipher login with
    | .error e =>
      listLoginsLoop env rest decryptedLoginCiphers
        (w.log (.Warn ("Could not decrypt login:" ++ e)))
    | .ok key =>
      match (if ¬ login.Name.IsNull then DecryptWith env.prims login.Name key else .ok []) with
      | .abort e => (.error e, w)
      | .err e =>
        listLoginsLoop env rest decryptedLoginCiphers
          (w.log (.Warn ("Could not decrypt login:" ++ e)))
      | .ok decryptedName =>
        match (if ¬ login.Username.IsNull then DecryptWith env.prims login.Username key
          else .ok []) with
        | .abort e => (.error e, w)
        | .err e =>
          listLoginsLoop env rest decryptedLoginCiphers
            (w.log (.Warn ("Could not decrypt login:" ++ e)))
        | .ok decryptedUsername =>
          listLoginsLoop env rest
            (decryptedLoginCiphers ++
              [{ Name := bytesToString decryptedName, Username := bytesToString decryptedUsername,
                 Password := "", UUID := login.ID, OrgaizationID := "", Notes := "",
                 TwoFactorCode := "" }])
            (w.log .FreeOSMemory)

/-- Go `handleListLoginsRequest`. -/
def handleListLoginsRequest : Action := fun _request env ctx w =>
  let w := w.log (.GetApproval "Approve List Credentials" (listLoginsPrompt ctx))
  match env.GetApproval "Approve List Credentials" (listLoginsPrompt ctx) with
  | .ok true =>
    let w := w.log .GetLogins
    match listLoginsLoop env env.vault.GetLogins [] w with
    | (.error e, w) => (.abort e, w)
    | (.ok decryptedLoginCiphers, w) =>
      (IPCMessageFromPayload
        (.GetLoginsResponse (decide (decryptedLoginCiphers.length > 0)) decryptedLoginCiphers),
        w)
  | _ => (IPCMessageFromPayload (.ActionResponse false "not approved"), w)

/-! ## `browserbiometrics.go` -/

/-- The text of the consent prompt of `handleGetBiometricsKey`. -/
def biometricsPrompt (ctx : CallingContext) : String :=
  ctx.UserName ++ " on " ++ ctx.GrandParentProcessName ++ ">" ++ ctx.ParentProcessName ++ ">" ++
    ctx.ProcessName ++
    " is trying to access your vault encryption key for browser biometric unlock."

/-- Go `handleGetBiometricsKey`.  `||` evaluates `CheckBiometrics` only when
`VerifyPinSession` is false. -/
def handleGetBiometricsKey : Action := fun _request env ctx w =>
  let (pin, w) := VerifyPinSession ctx w
  let (allowed, w) :=
    if pin then (true, w)
    else (env.CheckBiometrics .BrowserBiometrics, w.log (.CheckBiometrics .BrowserBiometrics))
  if ¬ allowed then (IPCMessageFromPayload (.ActionResponse false "not approved"), w)
  else
    let w := w.log (.GetApproval "Approve Credential Access" (biometricsPrompt ctx))
    match env.GetApproval "Approve Credential Access" (biometricsPrompt ctx) with
    | .ok true =>
      let w := w.log .GetMasterKey
      match env.GetMasterKey with
      | .error e => (.err e, w)
      | .ok masterKey =>
        (IPCMessageFromPayload (.GetBiometricsKeyResponse (bytesToString (b64encode masterKey))),
          w)
    | _ => (IPCMessageFromPayload (.ActionResponse false "not approved"), w)

/-- The registry after the `init` functions of `browserbiometrics.go` and `logins.go` have
run (in that order, the order of the file names). -/
def AgentActionsRegistry : ActionsRegistry :=
  ((newActionsRegistry.Register (MessageTypeForEmptyPayload .GetBiometricsKeyRequest)
      (ensureIsNotLocked (ensureIsLoggedIn handleGetBiometricsKey))).Register
      (MessageTypeForEmptyPayload (.GetLoginRequest "" "" "" ""))
      (ensureEverything .AccessVault handleGetLoginCipher)).Register
    (MessageTypeForEmptyPayload .ListLoginsRequest)
    (ensureEverything .AccessVault handleListLoginsRequest)

/-- Whether a call panicked. -/
def Res.isAbort {α : Type} : Res α → Bool
  | .abort _ => true
  | _ => false

/-! ## Notions used in the statements about the gates -/

/-- The events of the lock gate: the lock query, the unlock attempt, the sync and the
installation of the PIN session. -/
def Event.isUnlockEvent : Event → Bool
  | .IsLocked => true
  | .TryUnlock => true
  | .GetToken => true
  | .RefreshToken => true
  | .GetUserSymmetricKey => true
  | .DoFullSync => true
  | .CreatePinSession _ => true
  | _ => false

/-- The lock gate lets a request through: the config is unlocked, or `TryUnlock` returns no
error and `sync` reports success. -/
def lockGateOpen (env : Env) (w : World) : Prop :=
  w.locked = false ∨ (env.tryUnlock = none ∧ (sync env w).1 = true)

/-- The login gate lets a request through: the stored master password hash is present and
non-empty. -/
def loggedIn (env : Env) : Prop :=
  ∃ hash, env.GetMasterPasswordHash = .ok hash ∧ hash.length ≠ 0

instance (env : Env) (w : World) : Decidable (lockGateOpen env w) := by
  unfold lockGateOpen
  infer_instance

instance (env : Env) : Decidable (loggedIn env) :=
  match h : env.GetMasterPasswordHash with
  | .ok hash =>
    if h2 : hash.length ≠ 0 then isTrue ⟨hash, h, h2⟩
    else isFalse (by
      rintro ⟨x, hx, hx2⟩
      rw [h] at hx
      cases hx
      exact h2 hx2)
  | .error _ => isFalse (by
      rintro ⟨x, hx, _⟩
      rw [h] at hx
      cases hx)

/-- A gate, on an input, does not invoke the handler it wraps: the outcome is the same for
every handler. -/
def Blocks (gate : Action → Action) (request : IPCMessage) (env : Env) (ctx : CallingContext)
    (w : World) : Prop :=
  ∀ h h2 : Action, gate h request env ctx w = gate h2 request env ctx w

/-! ## Concrete inputs for evaluating the handlers -/

/-- The bytes of a text. -/
def stringToBytes (t : String) : Bytes := t.data.map fun ch => byteOfNat ch.toNat

/-- The cipher string of the HMAC suite for a text, under `sampleKey`, with the primitives
`xorPrimitives` and the random source `zeroReader`. -/
def sampleEncrypt (t : String) : EncString :=
  match EncryptWith xorPrimitives zeroReader (stringToBytes t) AesCbc256_HmacSha256_B64
      sampleKey with
  | .ok (c, none) => c
  | _ => EncString.zero

/-- A login with an encrypted name, username and password, no notes and no TOTP seed. -/
def sampleLogin : Login where
  ID := "11111111-1111-1111-1111-111111111111"
  OrganizationID := none
  Name := sampleEncrypt "example.com"
  Username := sampleEncrypt "alice"
  Password := sampleEncrypt "hunter2"
  Totp := EncString.zero
  Notes := none

/-- The login `sampleLogin` with the last MAC byte of its name overwritten. -/
def tamperedLogin : Login :=
  { sampleLogin with Name := { sampleLogin.Name with MAC := sampleLogin.Name.MAC.set 31 0 } }

/-- A calling context. -/
def sampleCtx : CallingContext where
  UserName := "alice"
  ProcessName := "client"
  ParentProcessName := "bash"
  GrandParentProcessName := "terminal"

/-- A vault that holds the given login. -/
def vaultOf (login : Login) : Vault where
  GetLogins := [login]
  GetLoginByFilter uuid _ _ _ := if uuid = login.ID then .ok login else .error "not found"
  GetKeyForCipher _ := .ok sampleKey

/-- Collaborators that let everything through: the unlock succeeds, there is no access token
(so that `sync` has nothing to do), the user is logged in, every permission and every consent
is granted. -/
def sampleEnv : Env where
  prims := xorPrimitives
  vault := vaultOf sampleLogin
  tryUnlock := none
  GetMasterPasswordHash := .ok [1]
  GetToken := .ok ""
  GetUserSymmetricKey := .ok []
  DoFullSync := none
  GetMasterKey := .ok [1, 2, 3]
  GetPermission _ _ := .ok true
  CheckBiometrics _ := true
  GetApproval _ _ := .ok true
  GenerateCode _ := .ok "123456"

/-- An unlocked state with no PIN session and an empty trace. -/
def unlockedWorld : World := { locked := false, pinSessions := [], trace := [] }

/-- A locked state with no PIN session and an empty trace. -/
def lockedWorld : World := { locked := true, pinSessions := [], trace := [] }

/-- A handler that answers every request with a success response. -/
def okHandler : Action := fun _ _ _ w => (.ok (.ActionResponse true "handled"), w)

/-- Collaborators for which the unlock succeeds and the full sync fails. -/
def syncFailEnv : Env :=
  { sampleEnv with GetToken := .ok "token", DoFullSync := some "sync failed" }

/-- A cipher string of the suite without MAC whose IV has three bytes: what `UnmarshalText`
yields from the text `0.AAAA|AAAA|`. -/
def shortIvCipher : EncString := { Typ := AesCbc256_B64, IV := [0, 0, 0], CT := [0, 0, 0], MAC := [] }

/-! ## Notions used in the statements about the list of logins -/

/-- The text of a field of a login in the list: the empty text for a null field, the
decrypted text for a field that decrypts, nothing for a field whose decryption fails. -/
def fieldText (P : Primitives) (field : EncString) (key : SymmetricEncryptionKey) :
    Option String :=
  if field.IsNull then some ""
  else
    match DecryptWith P field key with
    | .ok v => some (bytesToString v)
    | _ => none

/-- The entry of a login in the list: present when the key lookup and the decryptions of
its present name and username all succeed. -/
def listEntry (env : Env) (login : Login) : Option DecryptedLoginCipher :=
  match env.vault.GetKeyForCipher login with
  | .error _ => none
  | .ok key =>
    match fieldText env.prims login.Name key, fieldText env.prims login.Username key with
    | some name, some username =>
      some { Name := name, Username := username, Password := "", UUID := login.ID,
             OrgaizationID := "", Notes := "", TwoFactorCode := "" }
    | _, _ => none

/-- No decryption of a present name or username of the login panics. -/
def decryptsWithoutPanic (env : Env) (login : Login) : Prop :=
  ∀ key, env.vault.GetKeyForCipher login = .ok key →
    (login.Name.IsNull = false → (DecryptWith env.prims login.Name key).isAbort = false) ∧
    (login.Username.IsNull = false →
      (DecryptWith env.prims login.Username key).isAbort = false)

/-- A login whose name is the cipher string `shortIvCipher`. -/
def shortIvLogin : Login :=
  { sampleLogin with ID := "22222222-2222-2222-2222-222222222222", Name := shortIvCipher }

/-- A vault that holds the given logins, all under the key `sampleKey`. -/
def vaultOfLogins (logins : List Login) : Vault where
  GetLogins := logins
  GetLoginByFilter uuid _ _ _ :=
    match logins.find? fun l => decide (l.ID = uuid) with
    | some l => .ok l
    | none => .error "not found"
  GetKeyForCipher _ := .ok sampleKey

/-! # Theorems -/

/-! ## Facts about the codec -/

theorem b64val_b64char (i : Nat) (h : i < 64) : b64val (b64char i) = some i := by
  interval_cases i <;> rfl

theorem b64char_ne_pipe (i : Nat) : b64char i ≠ pipe := by
  by_cases h : i < 64
  · interval_cases i <;> decide
  · have h62 : ¬ i < 62 := by omega
    have h52 : ¬ i < 52 := by omega
    have h26 : ¬ i < 26 := by omega
    have hne : ¬ i = 62 := by omega
    simp [b64char, h62, h52, h26, hne, pipe]

theorem b64char_ne_pad (i : Nat) : b64char i ≠ padChar := by
  by_cases h : i < 64
  · interval_cases i <;> decide
  · have h62 : ¬ i < 62 := by omega
    have h52 : ¬ i < 52 := by omega
    have h26 : ¬ i < 26 := by omega
    have hne : ¬ i = 62 := by omega
    simp [b64char, h62, h52, h26, hne, padChar]

theorem byteOfNat_val (a : Byte) (n : Nat) (h : n = a.val) : byteOfNat n = a := by
  apply Fin.ext
  have := a.isLt
  simp only [byteOfNat]
  omega

theorem pipe_not_mem_b64encode : ∀ x : Bytes, pipe ∉ b64encode x
  | [] => by simp [b64encode]
  | [a] => by
    simp only [b64encode, List.mem_cons, List.mem_singleton, List.not_mem_nil, or_false, not_or]
    exact ⟨(b64char_ne_pipe _).symm, (b64char_ne_pipe _).symm, by decide, by decide⟩
  | [a, b] => by
    simp only [b64encode, List.mem_cons, List.mem_singleton, List.not_mem_nil, or_false, not_or]
    exact ⟨(b64char_ne_pipe _).symm, (b64char_ne_pipe _).symm, (b64char_ne_pipe _).symm,
      by decide⟩
  | a :: b :: c :: rest => by
    simp only [b64encode, List.mem_cons, not_or]
    exact ⟨(b64char_ne_pipe _).symm, (b64char_ne_pipe _).symm, (b64char_ne_pipe _).symm,
      (b64char_ne_pipe _).symm, pipe_not_mem_b64encode rest⟩

theorem decodeQuanta_b64encode : ∀ x : Bytes, decodeQuanta (b64encode x) = .ok x
  | [] => by simp [b64encode, decodeQuanta]
  | [a] => by
    have ha := a.isLt
    have h0 := b64val_b64char (a.val / 4) (by omega)
    have h1 := b64val_b64char (a.val % 4 * 16) (by omega)
    simp only [b64encode, decodeQuanta, h0, h1, and_self, if_true]
    rw [byteOfNat_val a _ (by omega)]
  | [a, b] => by
    have ha := a.isLt
    have hb := b.isLt
    have h0 := b64val_b64char (a.val / 4) (by omega)
    have h1 := b64val_b64char (a.val % 4 * 16 + b.val / 16) (by omega)
    have h2 := b64val_b64char (b.val % 16 * 4) (by omega)
    simp only [b64encode, decodeQuanta, h0, h1, h2, b64char_ne_pad, false_and, and_false, and_self,
      if_true, if_false]
    rw [byteOfNat_val a _ (by omega), byteOfNat_val b _ (by omega)]
  | a :: b :: c :: rest => by
    have ha := a.isLt
    have hb := b.isLt
    have hc := c.isLt
    have h0 := b64val_b64char (a.val / 4) (by omega)
    have h1 := b64val_b64char (a.val % 4 * 16 + b.val / 16) (by omega)
    have h2 := b64val_b64char (b.val % 16 * 4 + c.val / 64) (by omega)
    have h3 := b64val_b64char (c.val % 64) (by omega)
    simp only [b64encode, decodeQuanta, h0, h1, h2, h3, b64char_ne_pad, false_and, and_false,
      if_false, decodeQuanta_b64encode rest]
    rw [byteOfNat_val a _ (by omega), byteOfNat_val b _ (by omega), byteOfNat_val c _ (by omega)]

theorem b64char_not_lineBreak (i : Nat) : isLineBreak (b64char i) = false := by
  by_cases h : i < 64
  · interval_cases i <;> decide
  · have h62 : ¬ i < 62 := by omega
    have h52 : ¬ i < 52 := by omega
    have h26 : ¬ i < 26 := by omega
    have hne : ¬ i = 62 := by omega
    simp only [b64char, h62, h52, h26, hne, if_false]
    decide

theorem lineBreak_free_b64encode : ∀ (x : Bytes), ∀ c ∈ b64encode x, isLineBreak c = false
  | [], c, h => by simp [b64encode] at h
  | [a], c, h => by
    simp only [b64encode, List.mem_cons, List.mem_singleton, List.not_mem_nil, or_false] at h
    rcases h with rfl | rfl | rfl | rfl
    · exact b64char_not_lineBreak _
    · exact b64char_not_lineBreak _
    · decide
    · decide
  | [a, b], c, h => by
    simp only [b64encode, List.mem_cons, List.mem_singleton, List.not_mem_nil, or_false] at h
    rcases h with rfl | rfl | rfl | rfl
    · exact b64char_not_lineBreak _
    · exact b64char_not_lineBreak _
    · exact b64char_not_lineBreak _
    · decide
  | a :: b :: d :: rest, c, h => by
    simp only [b64encode, List.mem_cons] at h
    rcases h with rfl | rfl | rfl | rfl | h
    · exact b64char_not_lineBreak _
    · exact b64char_not_lineBreak _
    · exact b64char_not_lineBreak _
    · exact b64char_not_lineBreak _
    · exact lineBreak_free_b64encode rest c h

theorem b64decode_b64encode (x : Bytes) : b64decode (b64encode x) = .ok x := by
  unfold b64decode
  rw [List.filter_eq_self.mpr (fun c hc => by simp [lineBreak_free_b64encode x c hc])]
  exact decodeQuanta_b64encode x

/-- Line breaks in a base64 text are skipped: `AQ==` followed by a line feed decodes to the
byte 1. -/
theorem b64decode_skips_line_breaks :
    b64decode [65, 81, 61, 61, 10] = .ok [1] ∧ b64decode [65, 13, 10, 81, 61, 61] = .ok [1] ∧
      EncString.UnmarshalText EncString.zero
          [50, 46, 65, 81, 61, 61, 10, 124, 65, 103, 61, 61, 124, 65, 119, 61, 61] =
        (⟨2, [1], [2], [3]⟩, none) := by
  decide

theorem Split_ne_nil (sep : Byte) : ∀ x : Bytes, Split sep x ≠ []
  | [] => by simp [Split]
  | b :: rest => by
    unfold Split
    split
    · simp
    · split <;> simp

theorem Split_of_not_mem (sep : Byte) : ∀ x : Bytes, sep ∉ x → Split sep x = [x]
  | [], _ => by simp [Split]
  | b :: rest, h => by
    have hb : b ≠ sep := fun e => h (by simp [e])
    have hr : sep ∉ rest := fun e => h (by simp [e])
    simp [Split, hb, Split_of_not_mem sep rest hr]

theorem Split_append_sep (sep : Byte) :
    ∀ (x rest : Bytes), sep ∉ x → Split sep (x ++ sep :: rest) = x :: Split sep rest
  | [], rest, _ => by simp [Split]
  | b :: x, rest, h => by
    have hb : b ≠ sep := fun e => h (by simp [e])
    have hr : sep ∉ x := fun e => h (by simp [e])
    simp [Split, hb, Split_append_sep sep x rest hr]

theorem Split_three (a b c : Bytes) (ha : pipe ∉ a) (hb : pipe ∉ b) (hc : pipe ∉ c) :
    Split pipe (a ++ [pipe] ++ b ++ [pipe] ++ c) = [a, b, c] := by
  have e : a ++ [pipe] ++ b ++ [pipe] ++ c = a ++ pipe :: (b ++ pipe :: c) := by simp
  rw [e, Split_append_sep pipe a _ ha, Split_append_sep pipe b _ hb, Split_of_not_mem pipe c hc]

/-- Serializing a cipher string of a suite 1 or 2 and parsing the text into a fresh cipher
string gives the cipher string back. -/
theorem unmarshal_marshal_mac_suite (t : EncStringType) (ht : t = 1 ∨ t = 2)
    (iv ct mac : Bytes) :
    EncString.MarshalText ⟨t, iv, ct, mac⟩ =
        (Itoa t ++ [dot] ++ b64encode iv ++ [pipe] ++ b64encode ct ++ [pipe] ++ b64encode mac,
          none) ∧
      EncString.UnmarshalText EncString.zero (EncString.MarshalText ⟨t, iv, ct, mac⟩).1 =
        (⟨t, iv, ct, mac⟩, none) := by
  have hmarshal : EncString.MarshalText ⟨t, iv, ct, mac⟩ =
      (Itoa t ++ [dot] ++ b64encode iv ++ [pipe] ++ b64encode ct ++ [pipe] ++ b64encode mac,
        none) := by
    rcases ht with rfl | rfl <;> simp [EncString.MarshalText, HasMAC, AesCbc256_B64]
  refine ⟨hmarshal, ?_⟩
  rw [hmarshal]
  have hsplit : Split pipe (b64encode iv ++ pipe :: (b64encode ct ++ pipe :: b64encode mac)) =
      [b64encode iv, b64encode ct, b64encode mac] := by
    simpa using Split_three (b64encode iv) (b64encode ct) (b64encode mac)
      (pipe_not_mem_b64encode iv) (pipe_not_mem_b64encode ct) (pipe_not_mem_b64encode mac)
  rcases ht with rfl | rfl
  · have hI : Itoa 1 = [49] := by decide
    have hidx : IndexByte ([49] ++ [dot] ++ b64encode iv ++ [pipe] ++ b64encode ct ++ [pipe] ++
        b64encode mac) dot = 1 := by
      simp [IndexByte, dot, List.indexOf_cons]
    have hA : Atoi [49] = .ok 1 := by decide
    simp only [hI, EncString.UnmarshalText, hidx]
    simp [hA, AesCbc128_HmacSha256_B64, AesCbc256_HmacSha256_B64, AesCbc256_B64, HasMAC,
      EncString.zero, hsplit, b64decode_b64encode]
  · have hI : Itoa 2 = [50] := by decide
    have hidx : IndexByte ([50] ++ [dot] ++ b64encode iv ++ [pipe] ++ b64encode ct ++ [pipe] ++
        b64encode mac) dot = 1 := by
      simp [IndexByte, dot, List.indexOf_cons]
    have hA : Atoi [50] = .ok 2 := by decide
    simp only [hI, EncString.UnmarshalText, hidx]
    simp [hA, AesCbc128_HmacSha256_B64, AesCbc256_HmacSha256_B64, AesCbc256_B64, HasMAC,
      EncString.zero, hsplit, b64decode_b64encode]

theorem Split_two (a b : Bytes) (ha : pipe ∉ a) (hb : pipe ∉ b) :
    Split pipe (a ++ pipe :: b) = [a, b] := by
  rw [Split_append_sep pipe a _ ha, Split_of_not_mem pipe b hb]

theorem Split_three_cons (a b c : Bytes) (ha : pipe ∉ a) (hb : pipe ∉ b) (hc : pipe ∉ c) :
    Split pipe (a ++ pipe :: (b ++ pipe :: c)) = [a, b, c] := by
  rw [Split_append_sep pipe a _ ha, Split_append_sep pipe b _ hb, Split_of_not_mem pipe c hc]

/-! ## Facts about the crypto engine -/

theorem bxor_cancel (a b : Byte) : bxor (bxor a b) b = a := by
  apply Fin.ext
  simp [bxor, Nat.xor_assoc]

theorem bxor_cancel_left (a b : Byte) : bxor b (bxor b a) = a := by
  apply Fin.ext
  simp [bxor, ← Nat.xor_assoc]

theorem xorBytes_length (a b : Bytes) : (xorBytes a b).length = min a.length b.length := by
  simp [xorBytes]

theorem xorBytes_cancel : ∀ (a b : Bytes), a.length ≤ b.length → xorBytes (xorBytes a b) b = a
  | [], _, _ => by simp [xorBytes]
  | x :: a, [], h => by simp at h
  | x :: a, y :: b, h => by
    have h2 : a.length ≤ b.length := by simpa using h
    have ih := xorBytes_cancel a b h2
    simp only [xorBytes] at ih ⊢
    simp [bxor_cancel, ih]

theorem xorPrimitives_lawful : xorPrimitives.Lawful where
  aes_length := by intro key block h; simp [xorPrimitives, h]
  aes_inverse := by
    intro key block _
    simp only [xorPrimitives, List.map_map]
    have : (bxor (key.headD 0) ∘ bxor (key.headD 0)) = id := by
      funext x; simp [bxor_cancel_left]
    rw [this, List.map_id]
  hmac_length := by intro key msg; simp [xorPrimitives]

theorem take_block (c rest : Bytes) (h : c.length = 16) : (c ++ rest).take BlockSize = c := by
  unfold BlockSize
  rw [← h]
  simp

theorem drop_block (c rest : Bytes) (h : c.length = 16) : (c ++ rest).drop BlockSize = rest := by
  unfold BlockSize
  rw [← h]
  simp

theorem cbcEncryptLoop_length (P : Primitives) (hP : P.Lawful) (key : Bytes) :
    ∀ (n : Nat) (prev src : Bytes), prev.length = 16 → src.length = 16 * n →
      (cbcEncryptLoop P key n prev src).length = 16 * n
  | 0, _, _, _, _ => by simp [cbcEncryptLoop]
  | n + 1, prev, src, hp, hs => by
    have hx : (xorBytes (src.take BlockSize) prev).length = 16 := by
      simp [xorBytes_length, BlockSize, hp, hs]
    have hc := hP.aes_length key _ hx
    have ih := cbcEncryptLoop_length P hP key n
      (P.aesEncrypt key (xorBytes (src.take BlockSize) prev)) (src.drop BlockSize) hc
      (by simp [BlockSize, hs]; omega)
    simp only [cbcEncryptLoop, List.length_append, hc, ih]
    omega

theorem cbcDecrypt_cbcEncrypt (P : Primitives) (hP : P.Lawful) (key : Bytes) :
    ∀ (n : Nat) (prev src : Bytes), prev.length = 16 → src.length = 16 * n →
      cbcDecryptLoop P key n prev (cbcEncryptLoop P key n prev src) = src
  | 0, _, src, _, hs => by
    have : src = [] := List.length_eq_zero.mp (by simpa using hs)
    simp [cbcDecryptLoop, this]
  | n + 1, prev, src, hp, hs => by
    have ht : (src.take BlockSize).length = 16 := by simp [BlockSize, hs]
    have hx : (xorBytes (src.take BlockSize) prev).length = 16 := by
      simp [xorBytes_length, BlockSize, hp, hs]
    have hc := hP.aes_length key _ hx
    have ih := cbcDecrypt_cbcEncrypt P hP key n
      (P.aesEncrypt key (xorBytes (src.take BlockSize) prev)) (src.drop BlockSize) hc
      (by simp [BlockSize, hs]; omega)
    have htake := fun rest : Bytes => take_block _ rest hc
    have hdrop := fun rest : Bytes => drop_block _ rest hc
    simp only [cbcDecryptLoop, cbcEncryptLoop, htake, hdrop, hP.aes_inverse key _ hx, ih]
    rw [xorBytes_cancel _ _ (by simp [ht, hp]), List.take_append_drop]

theorem padPKCS7_length (p : Bytes) : (padPKCS7 p 16).length % 16 = 0 := by
  simp only [padPKCS7, List.length_append, List.length_replicate]
  omega

theorem unpadPKCS7_padPKCS7 (p : Bytes) : unpadPKCS7 (padPKCS7 p 16) 16 = .ok p := by
  have hn1 : 1 ≤ 16 - p.length % 16 := by omega
  have hn2 : 16 - p.length % 16 ≤ 16 := by omega
  obtain ⟨n, hn⟩ : ∃ n, n = 16 - p.length % 16 := ⟨_, rfl⟩
  have hval : (byteOfNat n).val = n := by simp [byteOfNat]; omega
  have hlast : (padPKCS7 p 16).getLast? = some (byteOfNat n) := by
    simp only [padPKCS7, ← hn]
    obtain ⟨m, rfl⟩ : ∃ m, n = m + 1 := ⟨n - 1, by omega⟩
    rw [List.replicate_succ', ← List.append_assoc, List.getLast?_concat]
  have hlen : (padPKCS7 p 16).length = p.length + n := by simp [padPKCS7, hn]
  have hmod := padPKCS7_length p
  simp only [unpadPKCS7, hlast, hval, hlen] at hmod ⊢
  have h1 : ¬ ((p.length + n) % 16 ≠ 0 ∨ n = 0 ∨ 16 < n ∨ p.length + n < n) := by omega
  have h2 : p.length + n - n = p.length := by omega
  simp only [h1, if_false, h2]
  simp [padPKCS7, ← hn]

theorem ReadFull_length (reader : Nat → Except String Bytes) (n : Nat) (b : Bytes)
    (h : ReadFull reader n = .ok b) : b.length = n := by
  unfold ReadFull at h
  split at h
  · cases h
  · split at h
    · cases h; assumption
    · cases h

theorem CBCEncrypt_ok (P : Primitives) (hP : P.Lawful) (key iv src ct : Bytes)
    (h : CBCEncrypt P key iv src = .ok ct) :
    iv.length = 16 ∧ src.length % 16 = 0 ∧ ct.length = src.length ∧
      CBCDecrypt P key iv ct = .ok src := by
  unfold CBCEncrypt at h
  split at h
  · cases h
  · split at h
    · cases h
    · rename_i hiv hsrc
      simp only [BlockSize, ne_eq, not_not] at hiv hsrc
      injection h with h
      have hs : src.length = 16 * (src.length / 16) := by omega
      have hlen := cbcEncryptLoop_length P hP key (src.length / 16) iv src hiv hs
      have hrt := cbcDecrypt_cbcEncrypt P hP key (src.length / 16) iv src hiv hs
      simp only [BlockSize] at h
      rw [h] at hlen hrt
      refine ⟨hiv, hsrc, by omega, ?_⟩
      have hmod : ct.length % 16 = 0 := by omega
      have hdiv : ct.length / 16 = src.length / 16 := by omega
      simp [CBCDecrypt, BlockSize, hiv, hmod, hdiv, hrt]

/-- What a successful `EncryptWith` returns. -/
theorem EncryptWith_ok (P : Primitives) (reader : Nat → Except String Bytes) (p : Bytes)
    (typ : EncStringType) (k : SymmetricEncryptionKey) (c : EncString)
    (h : EncryptWith P reader p typ k = .ok (c, none)) :
    ∃ encKeyData macKeyData iv ct,
      k.encKey.Open = .ok encKeyData ∧ k.macKey.Open = .ok macKeyData ∧
      (typ = AesCbc256_B64 ∨ typ = AesCbc256_HmacSha256_B64) ∧
      NewCipher encKeyData = .ok encKeyData ∧
      ReadFull reader BlockSize = .ok iv ∧
      CBCEncrypt P encKeyData iv (padPKCS7 p BlockSize) = .ok ct ∧
      (typ = AesCbc256_HmacSha256_B64 → macKeyData.length ≠ 0) ∧
      c = ⟨typ, iv, ct,
        if typ = AesCbc256_HmacSha256_B64 then P.hmacSha256 macKeyData (iv ++ ct) else []⟩ := by
  unfold EncryptWith at h
  split at h
  · simp at h
  · rename_i encKeyData hk
    split at h
    · simp at h
    · rename_i macKeyData hm
      simp only at h
      split at h
      · rename_i htyp
        split at h
        · simp at h
        · rename_i block hb
          have hblock : block = encKeyData := by
            unfold NewCipher at hb
            split at hb
            · injection hb with hb; exact hb.symm
            · cases hb
          subst hblock
          split at h
          · simp at h
          · rename_i iv hiv
            split at h
            · cases h
            · cases h
            · rename_i ct hct
              refine ⟨block, macKeyData, iv, ct, hk, hm, htyp, hb, hiv, hct, ?_⟩
              split at h
              · rename_i h2
                split at h
                · simp at h
                · rename_i hlen
                  injection h with h
                  injection h with h1 _
                  exact ⟨fun _ => hlen, by simp [← h1, h2, EncString.zero]⟩
              · rename_i h2
                injection h with h
                injection h with h1 _
                exact ⟨fun e => absurd e h2, by simp [← h1, h2, EncString.zero]⟩
      · simp at h

theorem bxor_pow_ne (b : Byte) (bit : Nat) : bxor b (byteOfNat (2 ^ (bit % 8))) ≠ b := by
  intro h
  have h2 : bxor b (bxor b (byteOfNat (2 ^ (bit % 8)))) = bxor b b := by rw [h]
  rw [bxor_cancel_left] at h2
  have h3 : bxor b b = 0 := by apply Fin.ext; simp [bxor]
  rw [h3] at h2
  have hlt : bit % 8 < 8 := Nat.mod_lt _ (by decide)
  revert h2
  generalize bit % 8 = j at hlt
  interval_cases j <;> decide

theorem flipBit_ne : ∀ (m : Bytes) (i bit : Nat), i < m.length → flipBit m i bit ≠ m
  | [], _, _, h => by simp at h
  | b :: rest, 0, bit, _ => by
    simp only [flipBit, ne_eq, List.cons.injEq, and_true]
    exact bxor_pow_ne b bit
  | b :: rest, i + 1, bit, h => by
    have := flipBit_ne rest i bit (by simpa using h)
    simpa [flipBit] using this

theorem flipBit_length : ∀ (m : Bytes) (i bit : Nat), (flipBit m i bit).length = m.length
  | [], _, _ => by simp [flipBit]
  | b :: rest, 0, bit => by simp [flipBit]
  | b :: rest, i + 1, bit => by simp [flipBit, flipBit_length rest i bit]

/-- What a successful `DecryptWith` on a string of the HMAC suite went through. -/
theorem DecryptWith_ok_hmac (P : Primitives) (c : EncString) (k : SymmetricEncryptionKey)
    (p : Bytes) (hT : c.Typ = AesCbc256_HmacSha256_B64) (h : DecryptWith P c k = .ok p) :
    ∃ encKeyData macKeyData, k.encKey.Open = .ok encKeyData ∧
      k.macKey.Open = .ok macKeyData ∧ NewCipher encKeyData = .ok encKeyData ∧
      c.MAC.length ≠ 0 ∧ macKeyData.length ≠ 0 ∧
      c.MAC = P.hmacSha256 macKeyData (c.IV ++ c.CT) := by
  unfold DecryptWith at h
  split at h
  · cases h
  · rename_i encKeyData hk
    split at h
    · cases h
    · rename_i macKeyData hm
      split at h
      · cases h
      · rename_i block hb
        have hblock : block = encKeyData := by
          unfold NewCipher at hb
          split at hb
          · injection hb with hb; exact hb.symm
          · cases hb
        subst hblock
        split at h
        · split at h
          · cases h
          · rename_i hcheck
            refine ⟨block, macKeyData, hk, hm, hb, ?_⟩
            simp only [macCheck, hT, if_true] at hcheck
            split at hcheck
            · cases hcheck
            · rename_i hne
              split at hcheck
              · cases hcheck
              · rename_i hv
                simp only [not_or] at hne
                simp only [isMacValid, Bool.not_eq_true, decide_eq_false_iff_not, not_not] at hv
                exact ⟨hne.1, hne.2, hv⟩
        · cases h

/-- The error of `DecryptWith` on a string of the HMAC suite whose MAC is present but is
not the tag of `IV ‖ CT`, under a key that opens. -/
theorem DecryptWith_mac_mismatch (P : Primitives) (c : EncString)
    (k : SymmetricEncryptionKey) (encKeyData macKeyData : Bytes)
    (hk : k.encKey.Open = .ok encKeyData) (hm : k.macKey.Open = .ok macKeyData)
    (hb : NewCipher encKeyData = .ok encKeyData) (hT : c.Typ = AesCbc256_HmacSha256_B64)
    (h1 : c.MAC.length ≠ 0) (h2 : macKeyData.length ≠ 0)
    (h3 : c.MAC ≠ P.hmacSha256 macKeyData (c.IV ++ c.CT)) :
    DecryptWith P c k = .err "decrypt: MAC mismatch" := by
  have hcheck : macCheck P c macKeyData = some "decrypt: MAC mismatch" := by
    simp [macCheck, hT, h1, h2, isMacValid, h3]
  simp [DecryptWith, hk, hm, hb, hT, hcheck]

theorem macCheck_congr (P Q : Primitives) (hQ : Q.hmacSha256 = P.hmacSha256) (c : EncString)
    (m : Bytes) : macCheck Q c m = macCheck P c m := by
  simp [macCheck, isMacValid, hQ]

/-- On a string of the HMAC suite with an empty MAC, or a MAC that does not verify,
`DecryptWith` returns an error, the same one whatever the block cipher is. -/
theorem DecryptWith_err_of_bad_mac (P : Primitives) (c : EncString)
    (k : SymmetricEncryptionKey) (hT : c.Typ = AesCbc256_HmacSha256_B64)
    (hbad : c.MAC = [] ∨
      ∀ m, k.macKey.Open = .ok m → isMacValid P (c.IV ++ c.CT) c.MAC m = false) :
    ∃ e, ∀ Q : Primitives, Q.hmacSha256 = P.hmacSha256 → DecryptWith Q c k = .err e := by
  unfold DecryptWith
  split
  · exact ⟨_, fun _ _ => rfl⟩
  · split
    · exact ⟨_, fun _ _ => rfl⟩
    · rename_i macKeyData hm
      split
      · exact ⟨_, fun _ _ => rfl⟩
      · have hcheck : ∃ e, macCheck P c macKeyData = some e := by
          simp only [macCheck, hT, if_true]
          rcases hbad with h | h
          · simp [h]
          · split
            · exact ⟨_, rfl⟩
            · simp [h macKeyData hm]
        obtain ⟨e, he⟩ := hcheck
        refine ⟨e, fun Q hQ => ?_⟩
        simp [hT, macCheck_congr P Q hQ, he]

theorem set_ne_self (m : Bytes) (i : Nat) (v : Byte) (hi : i < m.length)
    (hv : m.get? i ≠ some v) : m.set i v ≠ m := by
  intro h
  apply hv
  have : (m.set i v).get? i = some v := by simp [List.getElem?_set, hi]
  rw [h] at this
  exact this

/-! ## Facts about the gates -/

theorem sync_trace (env : Env) (w : World) :
    ∃ new : List Event, (sync env w).2.trace = w.trace ++ new ∧
      ∀ x ∈ new, x.isUnlockEvent = true := by
  unfold sync
  cases env.GetToken with
  | error e => exact ⟨[.GetToken], rfl, by simp [Event.isUnlockEvent]⟩
  | ok tok =>
    by_cases ht : tok = ""
    · exact ⟨[.GetToken], by simp [ht, World.log], by simp [Event.isUnlockEvent]⟩
    · cases env.GetUserSymmetricKey with
      | error e =>
        exact ⟨[.GetToken, .RefreshToken, .GetUserSymmetricKey], by simp [ht, World.log],
          by simp [Event.isUnlockEvent]⟩
      | ok k =>
        cases env.DoFullSync with
        | none =>
          exact ⟨[.GetToken, .RefreshToken, .GetUserSymmetricKey, .DoFullSync],
            by simp [ht, World.log], by simp [Event.isUnlockEvent]⟩
        | some e =>
          exact ⟨[.GetToken, .RefreshToken, .GetUserSymmetricKey, .DoFullSync],
            by simp [ht, World.log], by simp [Event.isUnlockEvent]⟩

theorem sync_result (env : Env) (w w2 : World) : (sync env w).1 = (sync env w2).1 := by
  unfold sync
  cases env.GetToken with
  | error e => rfl
  | ok tok =>
    by_cases ht : tok = ""
    · simp [ht]
    · cases env.GetUserSymmetricKey with
      | error e => simp [ht]
      | ok k => cases env.DoFullSync <;> simp [ht]

theorem TryUnlock_trace (env : Env) (w : World) :
    (TryUnlock env w).2.trace = w.trace ++ [.TryUnlock] := by
  unfold TryUnlock
  cases env.tryUnlock <;> simp [World.log]

theorem CreatePinSession_trace (ctx : CallingContext) (w : World) :
    (CreatePinSession ctx w).trace = w.trace ++ [.CreatePinSession ctx] := by
  simp [CreatePinSession, World.log]

theorem TryUnlock_result (env : Env) (w : World) : (TryUnlock env w).1 = env.tryUnlock := by
  unfold TryUnlock
  cases env.tryUnlock <;> simp

theorem ensureIsNotLocked_unlocked (a : Action) (request : IPCMessage) (env : Env)
    (ctx : CallingContext) (w : World) (hl : w.locked = false) :
    ensureIsNotLocked a request env ctx w = a request env ctx (w.log .IsLocked) := by
  simp [ensureIsNotLocked, World.log, hl]

theorem ensureIsNotLocked_locked (a : Action) (request : IPCMessage) (env : Env)
    (ctx : CallingContext) (w : World) (hl : w.locked = true) :
    ensureIsNotLocked a request env ctx w =
      match env.tryUnlock, (sync env (TryUnlock env (w.log .IsLocked)).2).1 with
      | some e, _ =>
        (.ok (.ActionResponse false e), (sync env (TryUnlock env (w.log .IsLocked)).2).2)
      | none, false =>
        (.abort "runtime error: invalid memory address or nil pointer dereference",
          (sync env (TryUnlock env (w.log .IsLocked)).2).2)
      | none, true =>
        a request env ctx
          (CreatePinSession ctx (sync env (TryUnlock env (w.log .IsLocked)).2).2) := by
  have hl2 : (w.log .IsLocked).locked = true := by simp [World.log, hl]
  simp only [ensureIsNotLocked, hl2, if_true]
  have hr := TryUnlock_result env (w.log .IsLocked)
  generalize TryUnlock env (w.log .IsLocked) = tu at hr ⊢
  obtain ⟨err, wu⟩ := tu
  simp only at hr
  subst hr
  generalize sync env wu = sy
  obtain ⟨success, ws⟩ := sy
  generalize env.tryUnlock = err
  cases err <;> cases success <;> simp [IPCMessageFromPayload]

/-- The lock gate: the state and the events after it, and what it does in each case. -/
theorem ensureIsNotLocked_cases (request : IPCMessage) (env : Env) (ctx : CallingContext)
    (w : World) :
    ∃ (w1 : World) (unlock : List Event), w1.trace = w.trace ++ unlock ∧
      (∀ x ∈ unlock, x.isUnlockEvent = true) ∧
      (lockGateOpen env w → ∀ a : Action,
        ensureIsNotLocked a request env ctx w = a request env ctx w1) ∧
      (w.locked = true → ∀ e, env.tryUnlock = some e → ∀ a : Action,
        ensureIsNotLocked a request env ctx w = (.ok (.ActionResponse false e), w1)) ∧
      (w.locked = true → env.tryUnlock = none → (sync env w).1 = false →
        Blocks ensureIsNotLocked request env ctx w) := by
  by_cases hl : w.locked = true
  · obtain ⟨new, hnew, hall⟩ := sync_trace env (TryUnlock env (w.log .IsLocked)).2
    have htr : (sync env (TryUnlock env (w.log .IsLocked)).2).2.trace =
        w.trace ++ ([.IsLocked, .TryUnlock] ++ new) := by
      rw [hnew, TryUnlock_trace]; simp [World.log]
    have hall2 : ∀ x ∈ [Event.IsLocked, Event.TryUnlock] ++ new, x.isUnlockEvent = true := by
      intro x hx
      simp only [List.mem_append, List.mem_cons, List.mem_singleton, List.not_mem_nil,
        or_false] at hx
      rcases hx with (rfl | rfl) | hx
      · rfl
      · rfl
      · exact hall x hx
    have hsr := sync_result env w (TryUnlock env (w.log .IsLocked)).2
    cases hu : env.tryUnlock with
    | some e =>
      refine ⟨_, _, htr, hall2, ?_, ?_, ?_⟩
      · intro h
        rcases h with h | h
        · simp [hl] at h
        · simp [hu] at h
      · intro _ e2 he2 a
        injection he2 with he2
        subst he2
        rw [ensureIsNotLocked_locked a request env ctx w hl, hu]
      · intro _ h; cases h
    | none =>
      cases hs : (sync env (TryUnlock env (w.log .IsLocked)).2).1 with
      | true =>
        refine ⟨CreatePinSession ctx (sync env (TryUnlock env (w.log .IsLocked)).2).2,
          ([.IsLocked, .TryUnlock] ++ new) ++ [.CreatePinSession ctx], ?_, ?_, ?_, ?_, ?_⟩
        · rw [CreatePinSession_trace, htr]
          simp
        · intro x hx
          rcases List.mem_append.mp hx with hx | hx
          · exact hall2 x hx
          · simp only [List.mem_singleton] at hx
            subst hx
            rfl
        · intro _ a
          rw [ensureIsNotLocked_locked a request env ctx w hl, hu, hs]
        · intro _ e he; cases he
        · intro _ _ h
          rw [hsr, hs] at h
          cases h
      | false =>
        refine ⟨_, _, htr, hall2, ?_, ?_, ?_⟩
        · intro h
          rcases h with h | h
          · simp [hl] at h
          · rw [hsr, hs] at h
            simp at h
        · intro _ e he; cases he
        · intro _ _ _ a a2
          rw [ensureIsNotLocked_locked a request env ctx w hl,
            ensureIsNotLocked_locked a2 request env ctx w hl, hu, hs]
  · have hl2 : w.locked = false := by simpa using hl
    refine ⟨w.log .IsLocked, [.IsLocked], by simp [World.log], ?_, ?_, ?_, ?_⟩
    · intro x hx
      simp only [List.mem_singleton] at hx
      subst hx
      rfl
    · intro _ a
      exact ensureIsNotLocked_unlocked a request env ctx w hl2
    · intro h; simp [hl2] at h
    · intro h; simp [hl2] at h

theorem ensureIsLoggedIn_pass (a : Action) (request : IPCMessage) (env : Env)
    (ctx : CallingContext) (w : World) (h : loggedIn env) :
    ensureIsLoggedIn a request env ctx w = a request env ctx (w.log .GetMasterPasswordHash) := by
  obtain ⟨hash, h1, h2⟩ := h
  simp [ensureIsLoggedIn, h1, h2]

theorem ensureIsLoggedIn_fail (a : Action) (request : IPCMessage) (env : Env)
    (ctx : CallingContext) (w : World) (h : ¬ loggedIn env) :
    ensureIsLoggedIn a request env ctx w =
      (.ok (.ActionResponse false "Not logged in"), w.log .GetMasterPasswordHash) := by
  unfold ensureIsLoggedIn
  cases hh : env.GetMasterPasswordHash with
  | error e => rfl
  | ok hash =>
    have : hash.length = 0 := by
      by_contra hne
      exact h ⟨hash, hh, hne⟩
    simp [this, IPCMessageFromPayload]

theorem ensureBiometricsAuthorized_pass (t : SessionType) (a : Action) (request : IPCMessage)
    (env : Env) (ctx : CallingContext) (w : World) (h : env.GetPermission t ctx = .ok true) :
    ensureBiometricsAuthorized t a request env ctx w =
      a request env ctx (w.log (.GetPermission t ctx)) := by
  simp [ensureBiometricsAuthorized, h]

theorem ensureBiometricsAuthorized_fail (t : SessionType) (a : Action) (request : IPCMessage)
    (env : Env) (ctx : CallingContext) (w : World) (h : env.GetPermission t ctx ≠ .ok true) :
    ensureBiometricsAuthorized t a request env ctx w =
      (.ok (.ActionResponse false "Polkit authorization failed required"),
        w.log (.GetPermission t ctx)) := by
  unfold ensureBiometricsAuthorized
  cases hp : env.GetPermission t ctx with
  | error e => rfl
  | ok b =>
    cases b with
    | true => exact absurd hp h
    | false => simp [IPCMessageFromPayload]

theorem ensureIsNotLocked_closed (request : IPCMessage) (env : Env) (ctx : CallingContext)
    (w : World) (hno : ¬ lockGateOpen env w) : Blocks ensureIsNotLocked request env ctx w := by
  obtain ⟨w1, unlock, _, _, _, herr, hblock⟩ := ensureIsNotLocked_cases request env ctx w
  have hl : w.locked = true := by
    by_contra hl
    exact hno (Or.inl (by simpa using hl))
  cases hu : env.tryUnlock with
  | some e =>
    intro h h2
    rw [herr hl e hu, herr hl e hu]
  | none =>
    have hs : (sync env w).1 = false := by
      by_contra hs
      exact hno (Or.inr ⟨hu, by simpa using hs⟩)
    exact hblock hl hu hs

/-- The lock and login gates do not invoke the handler when the lock gate or the login gate
is closed. -/
theorem lock_login_blocks (request : IPCMessage) (env : Env) (ctx : CallingContext)
    (w : World) (h : ¬ lockGateOpen env w ∨ ¬ loggedIn env) :
    Blocks (fun a => ensureIsNotLocked (ensureIsLoggedIn a)) request env ctx w := by
  intro a a2
  by_cases ho : lockGateOpen env w
  · have hli : ¬ loggedIn env := by
      rcases h with h | h
      · exact absurd ho h
      · exact h
    obtain ⟨w1, unlock, _, _, hopen, _, _⟩ := ensureIsNotLocked_cases request env ctx w
    show ensureIsNotLocked (ensureIsLoggedIn a) request env ctx w =
      ensureIsNotLocked (ensureIsLoggedIn a2) request env ctx w
    rw [hopen ho, hopen ho, ensureIsLoggedIn_fail _ _ _ _ _ hli,
      ensureIsLoggedIn_fail _ _ _ _ _ hli]
  · exact ensureIsNotLocked_closed request env ctx w ho _ _

/-- The three gates do not invoke the handler when one of them is closed. -/
theorem ensureEverything_blocks (t : SessionType) (request : IPCMessage) (env : Env)
    (ctx : CallingContext) (w : World)
    (h : ¬ lockGateOpen env w ∨ ¬ loggedIn env ∨ env.GetPermission t ctx ≠ .ok true) :
    Blocks (ensureEverything t) request env ctx w := by
  intro a a2
  by_cases h12 : ¬ lockGateOpen env w ∨ ¬ loggedIn env
  · exact lock_login_blocks request env ctx w h12 _ _
  · have ho : lockGateOpen env w := by
      by_contra hc
      exact h12 (Or.inl hc)
    have hli : loggedIn env := by
      by_contra hc
      exact h12 (Or.inr hc)
    have hp : env.GetPermission t ctx ≠ .ok true := by
      rcases h with h | h | h
      · exact absurd ho h
      · exact absurd hli h
      · exact h
    obtain ⟨w1, unlock, _, _, hopen, _, _⟩ := ensureIsNotLocked_cases request env ctx w
    unfold ensureEverything
    rw [hopen ho, hopen ho, ensureIsLoggedIn_pass _ _ _ _ _ hli,
      ensureIsLoggedIn_pass _ _ _ _ _ hli, ensureBiometricsAuthorized_fail _ _ _ _ _ _ hp,
      ensureBiometricsAuthorized_fail _ _ _ _ _ _ hp]

theorem sync_pinSessions (env : Env) (w : World) :
    (sync env w).2.pinSessions = w.pinSessions := by
  unfold sync
  cases env.GetToken with
  | error e => rfl
  | ok tok =>
    by_cases ht : tok = ""
    · simp [ht, World.log]
    · cases env.GetUserSymmetricKey with
      | error e => simp [ht, World.log]
      | ok k => cases env.DoFullSync <;> simp [ht, World.log]

theorem sync_trace_no_pin (env : Env) (w : World) :
    ∃ new : List Event, (sync env w).2.trace = w.trace ++ new ∧
      ∀ c, Event.CreatePinSession c ∉ new := by
  unfold sync
  cases env.GetToken with
  | error e => exact ⟨[.GetToken], rfl, by simp⟩
  | ok tok =>
    by_cases ht : tok = ""
    · exact ⟨[.GetToken], by simp [ht, World.log], by simp⟩
    · cases env.GetUserSymmetricKey with
      | error e =>
        exact ⟨[.GetToken, .RefreshToken, .GetUserSymmetricKey], by simp [ht, World.log],
          by simp⟩
      | ok k =>
        cases env.DoFullSync with
        | none =>
          exact ⟨[.GetToken, .RefreshToken, .GetUserSymmetricKey, .DoFullSync],
            by simp [ht, World.log], by simp⟩
        | some e =>
          exact ⟨[.GetToken, .RefreshToken, .GetUserSymmetricKey, .DoFullSync],
            by simp [ht, World.log], by simp⟩

theorem TryUnlock_pinSessions (env : Env) (w : World) :
    (TryUnlock env w).2.pinSessions = w.pinSessions := by
  unfold TryUnlock
  cases env.tryUnlock <;> simp [World.log]

/-- The lock gate on a locked config whose `TryUnlock` returns no error and whose sync
fails: the panic, in the state after the sync. -/
theorem ensureIsNotLocked_sync_failed (a : Action) (request : IPCMessage) (env : Env)
    (ctx : CallingContext) (w : World) (hl : w.locked = true) (hu : env.tryUnlock = none)
    (hs : (sync env w).1 = false) :
    ensureIsNotLocked a request env ctx w =
      (.abort "runtime error: invalid memory address or nil pointer dereference",
        (sync env (TryUnlock env (w.log .IsLocked)).2).2) := by
  rw [ensureIsNotLocked_locked a request env ctx w hl, hu,
    ← sync_result env w (TryUnlock env (w.log .IsLocked)).2, hs]

/-- The lock gate on a locked config whose `TryUnlock` returns no error and whose sync
succeeds: the action runs in the state with the PIN session installed. -/
theorem ensureIsNotLocked_sync_ok (a : Action) (request : IPCMessage) (env : Env)
    (ctx : CallingContext) (w : World) (hl : w.locked = true) (hu : env.tryUnlock = none)
    (hs : (sync env w).1 = true) :
    ensureIsNotLocked a request env ctx w =
      a request env ctx (CreatePinSession ctx (sync env (TryUnlock env (w.log .IsLocked)).2).2) := by
  rw [ensureIsNotLocked_locked a request env ctx w hl, hu,
    ← sync_result env w (TryUnlock env (w.log .IsLocked)).2, hs]

/-! ## Facts about the handlers -/

theorem decryptTotp_trace (env : Env) (field : EncString) (key : SymmetricEncryptionKey)
    (old : String) (w : World) :
    ∃ pre : List Event, (decryptTotp env field key old w).2.trace = w.trace ++ pre ∧
      ∀ a b, Event.GetApproval a b ∉ pre := by
  unfold decryptTotp
  split
  · split
    · dsimp only
      split
      · exact ⟨[_], rfl, by simp⟩
      · exact ⟨[_, _], by simp only [World.log, List.append_assoc]; rfl, by simp⟩
    · exact ⟨[.Println ""], by simp [World.log], by simp⟩
    · exact ⟨[], by simp, by simp⟩
  · exact ⟨[], by simp, by simp⟩

/-- The shape of a run of `handleGetLoginCipher`: either the consent prompter is not asked,
or it is asked once, at the end, and its answer decides between the login response and the
response "not approved". -/
theorem handleGetLoginCipher_shape (request : IPCMessage) (env : Env) (ctx : CallingContext)
    (w : World) :
    (∃ pre : List Event, (handleGetLoginCipher request env ctx w).2.trace = w.trace ++ pre ∧
      ∀ a b, Event.GetApproval a b ∉ pre) ∨
    (∃ (pre : List Event) (d : DecryptedLoginCipher),
      (∀ a b, Event.GetApproval a b ∉ pre) ∧
      (handleGetLoginCipher request env ctx w).2.trace =
        w.trace ++ pre ++
          [.GetApproval "Approve Credential Access" (getLoginPrompt ctx d.Username d.Name)] ∧
      (handleGetLoginCipher request env ctx w).1 =
        match env.GetApproval "Approve Credential Access"
          (getLoginPrompt ctx d.Username d.Name) with
        | .ok true => .ok (.GetLoginResponse true d)
        | _ => .ok (.ActionResponse false "not approved")) := by
  unfold handleGetLoginCipher
  cases request with
  | GetLoginRequest UUID OrgId Name Username =>
    dsimp only
    cases env.vault.GetLoginByFilter UUID OrgId Name Username with
    | error e =>
      exact Or.inl ⟨[.GetLoginByFilter UUID OrgId Name Username], by simp [World.log], by simp⟩
    | ok login =>
      have hpre2 : ∀ a b, Event.GetApproval a b ∉
          [Event.GetLoginByFilter UUID OrgId Name Username, Event.GetKeyForCipher login.ID] := by
        simp
      dsimp only
      cases env.vault.GetKeyForCipher login with
      | error e => exact Or.inl ⟨_, by simp [World.log], hpre2⟩
      | ok cipherKey =>
        dsimp only
        cases decryptInto env.prims login.Name cipherKey "NO NAME FOUND" with
        | error e => exact Or.inl ⟨_, by simp [World.log], hpre2⟩
        | ok name =>
          dsimp only
          cases decryptInto env.prims login.Username cipherKey "" with
          | error e => exact Or.inl ⟨_, by simp [World.log], hpre2⟩
          | ok username =>
            dsimp only
            cases decryptInto env.prims login.Password cipherKey "" with
            | error e => exact Or.inl ⟨_, by simp [World.log], hpre2⟩
            | ok password =>
              dsimp only
              cases decryptInto env.prims (login.Notes.getD EncString.zero) cipherKey "" with
              | error e => exact Or.inl ⟨_, by simp [World.log], hpre2⟩
              | ok notes =>
                dsimp only
                obtain ⟨pre, hpre, hno⟩ := decryptTotp_trace env login.Totp cipherKey ""
                  ((w.log (.GetLoginByFilter UUID OrgId Name Username)).log
                    (.GetKeyForCipher login.ID))
                have hno2 : ∀ a b, Event.GetApproval a b ∉
                    [Event.GetLoginByFilter UUID OrgId Name Username,
                      Event.GetKeyForCipher login.ID] ++ pre := by
                  intro a b hm
                  rcases List.mem_append.mp hm with hm | hm
                  · exact hpre2 a b hm
                  · exact hno a b hm
                generalize decryptTotp env login.Totp cipherKey ""
                  ((w.log (.GetLoginByFilter UUID OrgId Name Username)).log
                    (.GetKeyForCipher login.ID)) = r at hpre ⊢
                obtain ⟨rc, w2⟩ := r
                simp only [World.log] at hpre
                cases rc with
                | error e =>
                  exact Or.inl ⟨_, by simp only [hpre]; simp, hno2⟩
                | ok code =>
                  refine Or.inr ⟨[.GetLoginByFilter UUID OrgId Name Username,
                    .GetKeyForCipher login.ID] ++ pre,
                    { Name := name, Username := username, Password := password,
                      UUID := login.ID, OrgaizationID := login.OrganizationID.getD "",
                      Notes := notes, TwoFactorCode := code }, hno2, ?_, ?_⟩
                  · dsimp only
                    split <;> simp [World.log, hpre]
                  · dsimp only
                    split <;> simp_all [IPCMessageFromPayload]
  | _ => exact Or.inl ⟨[], by simp, by simp⟩

theorem decryptInto_cases (P : Primitives) (field : EncString) (key : SymmetricEncryptionKey)
    (old : String) (h : field.IsNull = false → (DecryptWith P field key).isAbort = false) :
    ∃ v, decryptInto P field key old = .ok v ∧
      ((∃ e, DecryptWith P field key = .err e) → v = old) := by
  unfold decryptInto
  by_cases hn : field.IsNull = true
  · exact ⟨old, by simp [hn], fun _ => rfl⟩
  · have hn2 : field.IsNull = false := by simpa using hn
    have h2 := h hn2
    simp only [hn, not_false_eq_true, if_true]
    cases hd : DecryptWith P field key with
    | ok v => exact ⟨bytesToString v, rfl, fun ⟨e, he⟩ => by cases he⟩
    | err e => exact ⟨old, rfl, fun _ => rfl⟩
    | abort e => rw [hd] at h2; simp [Res.isAbort] at h2

theorem decryptTotp_cases (env : Env) (field : EncString) (key : SymmetricEncryptionKey)
    (old : String) (w : World)
    (h : field.IsNull = false → (DecryptWith env.prims field key).isAbort = false) :
    ∃ code w2, decryptTotp env field key old w = (.ok code, w2) ∧
      ((∃ e, DecryptWith env.prims field key = .err e) → code = old) := by
  unfold decryptTotp
  by_cases hn : field.IsNull = true
  · exact ⟨old, w, by simp [hn], fun _ => rfl⟩
  · have hn2 : field.IsNull = false := by simpa using hn
    have h2 := h hn2
    simp only [hn, not_false_eq_true, if_true]
    cases hd : DecryptWith env.prims field key with
    | ok v =>
      dsimp only
      generalize env.GenerateCode _ = g
      cases g with
      | ok c => exact ⟨_, _, rfl, fun ⟨e, he⟩ => by cases he⟩
      | error c => exact ⟨_, _, rfl, fun ⟨e, he⟩ => by cases he⟩
    | err e => exact ⟨old, _, rfl, fun _ => rfl⟩
    | abort e => rw [hd] at h2; simp [Res.isAbort] at h2

/-- `handleGetBiometricsKey` when a PIN session of the caller exists: the OS-auth backend is
not asked, the consent prompter decides. -/
theorem handleGetBiometricsKey_pin (request : IPCMessage) (env : Env) (ctx : CallingContext)
    (w : World) (hp : ctx ∈ w.pinSessions) :
    handleGetBiometricsKey request env ctx w =
      match env.GetApproval "Approve Credential Access" (biometricsPrompt ctx) with
      | .ok true =>
        match env.GetMasterKey with
        | .error e =>
          (.err e, { w with trace := w.trace ++ [.VerifyPinSession ctx,
            .GetApproval "Approve Credential Access" (biometricsPrompt ctx), .GetMasterKey] })
        | .ok masterKey =>
          (.ok (.GetBiometricsKeyResponse (bytesToString (b64encode masterKey))),
            { w with trace := w.trace ++ [.VerifyPinSession ctx,
              .GetApproval "Approve Credential Access" (biometricsPrompt ctx), .GetMasterKey] })
      | _ =>
        (.ok (.ActionResponse false "not approved"),
          { w with trace := w.trace ++ [.VerifyPinSession ctx,
            .GetApproval "Approve Credential Access" (biometricsPrompt ctx)] }) := by
  simp only [handleGetBiometricsKey, VerifyPinSession, hp, decide_True, if_true, World.log,
    IPCMessageFromPayload, not_true_eq_false, if_false, List.append_assoc, List.singleton_append,
    List.cons_append, List.nil_append]

/-- `handleGetBiometricsKey` when no PIN session of the caller exists: the OS-auth backend is
asked, then the consent prompter. -/
theorem handleGetBiometricsKey_no_pin (request : IPCMessage) (env : Env)
    (ctx : CallingContext) (w : World) (hp : ctx ∉ w.pinSessions) :
    handleGetBiometricsKey request env ctx w =
      if env.CheckBiometrics .BrowserBiometrics = true then
        match env.GetApproval "Approve Credential Access" (biometricsPrompt ctx) with
        | .ok true =>
          match env.GetMasterKey with
          | .error e =>
            (.err e, { w with trace := w.trace ++ [.VerifyPinSession ctx,
              .CheckBiometrics .BrowserBiometrics,
              .GetApproval "Approve Credential Access" (biometricsPrompt ctx), .GetMasterKey] })
          | .ok masterKey =>
            (.ok (.GetBiometricsKeyResponse (bytesToString (b64encode masterKey))),
              { w with trace := w.trace ++ [.VerifyPinSession ctx,
                .CheckBiometrics .BrowserBiometrics,
                .GetApproval "Approve Credential Access" (biometricsPrompt ctx),
                .GetMasterKey] })
        | _ =>
          (.ok (.ActionResponse false "not approved"),
            { w with trace := w.trace ++ [.VerifyPinSession ctx,
              .CheckBiometrics .BrowserBiometrics,
              .GetApproval "Approve Credential Access" (biometricsPrompt ctx)] })
      else
        (.ok (.ActionResponse false "not approved"),
          { w with trace := w.trace ++ [.VerifyPinSession ctx,
            .CheckBiometrics .BrowserBiometrics] }) := by
  cases hb : env.CheckBiometrics .BrowserBiometrics with
  | false =>
    simp [handleGetBiometricsKey, VerifyPinSession, hp, hb, World.log, IPCMessageFromPayload]
  | true =>
    simp only [handleGetBiometricsKey, VerifyPinSession, hp, hb, decide_False, World.log,
      IPCMessageFromPayload, not_true_eq_false, if_false, if_true, List.append_assoc,
      List.singleton_append, List.cons_append, List.nil_append, Bool.false_eq_true]

theorem bytesToString_nil : bytesToString [] = "" := rfl

/-- The text of a field in the list, from the result of the decryption made for it in the
loop of `handleListLoginsRequest`. -/
theorem fieldText_of_result (P : Primitives) (field : EncString)
    (key : SymmetricEncryptionKey) :
    match (if ¬ field.IsNull then DecryptWith P field key else .ok []) with
    | .ok v => fieldText P field key = some (bytesToString v)
    | .err _ => fieldText P field key = none
    | .abort _ => field.IsNull = false ∧ (DecryptWith P field key).isAbort = true := by
  by_cases hn : field.IsNull = true
  · simp [hn, fieldText, bytesToString_nil]
  · simp only [hn, not_false_eq_true, if_true]
    cases hd : DecryptWith P field key with
    | ok v => simp [fieldText, hn, hd]
    | err e => simp [fieldText, hn, hd]
    | abort e => simp [hn, Res.isAbort]

/-- The loop of `handleListLoginsRequest`, when no decryption panics: the entries of the
logins are appended in order. -/
theorem listLoginsLoop_entries (env : Env) :
    ∀ (logins : List Login) (acc : List DecryptedLoginCipher) (w : World),
      (∀ login ∈ logins, decryptsWithoutPanic env login) →
      ∃ w2, listLoginsLoop env logins acc w = (.ok (acc ++ logins.filterMap (listEntry env)), w2)
  | [], acc, w, _ => ⟨w, by simp [listLoginsLoop]⟩
  | login :: rest, acc, w, h => by
    have hrest : ∀ l ∈ rest, decryptsWithoutPanic env l :=
      fun l hl => h l (List.mem_cons_of_mem _ hl)
    have hlogin := h login (List.mem_cons_self _ _)
    unfold listLoginsLoop
    dsimp only
    cases hk : env.vault.GetKeyForCipher login with
    | error e =>
      obtain ⟨w2, hw2⟩ := listLoginsLoop_entries env rest acc
        ((w.log (.GetKeyForCipher login.ID)).log (.Warn ("Could not decrypt login:" ++ e))) hrest
      exact ⟨w2, by simp [hw2, listEntry, hk]⟩
    | ok key =>
      obtain ⟨hn, hu⟩ := hlogin key hk
      dsimp only
      have hN := fieldText_of_result env.prims login.Name key
      have hU := fieldText_of_result env.prims login.Username key
      generalize (if ¬ login.Name.IsNull then DecryptWith env.prims login.Name key
        else Res.ok []) = rn at hN ⊢
      generalize (if ¬ login.Username.IsNull then DecryptWith env.prims login.Username key
        else Res.ok []) = ru at hU ⊢
      cases rn with
      | abort e =>
        simp only at hN
        rw [hn hN.1] at hN
        exact absurd hN.2 (by simp)
      | err e =>
        simp only at hN
        obtain ⟨w2, hw2⟩ := listLoginsLoop_entries env rest acc
          ((w.log (.GetKeyForCipher login.ID)).log
            (.Warn ("Could not decrypt login:" ++ e))) hrest
        exact ⟨w2, by simp [hw2, listEntry, hk, hN]⟩
      | ok n =>
        simp only at hN
        cases ru with
        | abort e =>
          simp only at hU
          rw [hu hU.1] at hU
          exact absurd hU.2 (by simp)
        | err e =>
          simp only at hU
          obtain ⟨w2, hw2⟩ := listLoginsLoop_entries env rest acc
            ((w.log (.GetKeyForCipher login.ID)).log
              (.Warn ("Could not decrypt login:" ++ e))) hrest
          exact ⟨w2, by simp [hw2, listEntry, hk, hN, hU]⟩
        | ok u =>
          simp only at hU
          obtain ⟨w2, hw2⟩ := listLoginsLoop_entries env rest
            (acc ++ [⟨bytesToString n, bytesToString u, "", login.ID, "", "", ""⟩])
            ((w.log (.GetKeyForCipher login.ID)).log .FreeOSMemory) hrest
          exact ⟨w2, by simp [hw2, listEntry, hk, hN, hU]⟩

/-- `handleListLoginsRequest` after an approved consent prompt, when no decryption panics:
the response lists, in vault order, the entries of the logins whose key lookup and
decryptions succeed, and Found tells whether there is one. -/
theorem handleListLoginsRequest_entries (request : IPCMessage) (env : Env)
    (ctx : CallingContext) (w : World)
    (happrove : env.GetApproval "Approve List Credentials" (listLoginsPrompt ctx) = .ok true)
    (h : ∀ login ∈ env.vault.GetLogins, decryptsWithoutPanic env login) :
    (handleListLoginsRequest request env ctx w).1 =
      .ok (.GetLoginsResponse
        (decide ((env.vault.GetLogins.filterMap (listEntry env)).length > 0))
        (env.vault.GetLogins.filterMap (listEntry env))) := by
  obtain ⟨w2, hw2⟩ := listLoginsLoop_entries env env.vault.GetLogins []
    ((w.log (.GetApproval "Approve List Credentials" (listLoginsPrompt ctx))).log .GetLogins) h
  simp [handleListLoginsRequest, happrove, hw2, IPCMessageFromPayload]

/-! ## The claims -/

/-- C1: for every plaintext `p` and key `k`, if `EncryptWith` with the suite
`AesCbc256_HmacSha256_B64` succeeds with the cipher string `c`, then `DecryptWith c k`
succeeds and returns exactly `p` (for AES and HMAC-SHA256 as in `Primitives.Lawful`, and
whatever the random source delivers). -/
theorem DecryptWith_EncryptWith (P : Primitives) (hP : P.Lawful)
    (reader : Nat → Except String Bytes) (p : Bytes) (k : SymmetricEncryptionKey)
    (c : EncString)
    (h : EncryptWith P reader p AesCbc256_HmacSha256_B64 k = .ok (c, none)) :
    DecryptWith P c k = .ok p := by
  obtain ⟨encKeyData, macKeyData, iv, ct, hk, hm, _, hb, _, hct, hmk, rfl⟩ :=
    EncryptWith_ok P reader p _ k c h
  obtain ⟨_, _, _, hdec⟩ := CBCEncrypt_ok P hP _ _ _ _ hct
  have hmac : (P.hmacSha256 macKeyData (iv ++ ct)).length ≠ 0 := by
    rw [hP.hmac_length]; decide
  have hcheck : macCheck P ⟨AesCbc256_HmacSha256_B64, iv, ct,
      P.hmacSha256 macKeyData (iv ++ ct)⟩ macKeyData = none := by
    simp [macCheck, hmac, hmk rfl, isMacValid]
  simp only [DecryptWith, hk, hm, hb, if_true, or_true, hcheck, hdec]
  have := unpadPKCS7_padPKCS7 p
  simp only [BlockSize]
  rw [this]

/-- C1, at a concrete plaintext and key. -/
theorem DecryptWith_EncryptWith_witness :
    EncryptWith xorPrimitives zeroReader [1, 2, 3] AesCbc256_HmacSha256_B64 sampleKey =
        .ok (⟨2, List.replicate 16 0, [6, 5, 4, 10, 10, 10, 10, 10, 10, 10, 10, 10, 10, 10, 10, 10],
          List.replicate 32 13⟩, none) ∧
      DecryptWith xorPrimitives ⟨2, List.replicate 16 0,
        [6, 5, 4, 10, 10, 10, 10, 10, 10, 10, 10, 10, 10, 10, 10, 10],
        List.replicate 32 13⟩ sampleKey = .ok [1, 2, 3] :=
  ⟨by decide, DecryptWith_EncryptWith xorPrimitives xorPrimitives_lawful zeroReader [1, 2, 3]
    sampleKey _ (by decide)⟩

/-- C2: for a cipher string `c` of the suite `AesCbc256_HmacSha256_B64` and any key `k`:
if `c.MAC` is empty or does not verify against `IV ‖ CT` under the MAC key of `k`, then
`DecryptWith` returns an error and no plaintext, and the error does not depend on the block
cipher (the MAC check precedes any decryption); in particular, when the MAC of `c` verified
under `k` (whose keys open and whose encryption key AES accepts), flipping one bit of the
MAC yields the error "decrypt: MAC mismatch". -/
theorem DecryptWith_mac_check_first (P : Primitives) (c : EncString)
    (k : SymmetricEncryptionKey) (hT : c.Typ = AesCbc256_HmacSha256_B64) :
    ((c.MAC = [] ∨
        ∀ m, k.macKey.Open = .ok m → isMacValid P (c.IV ++ c.CT) c.MAC m = false) →
      ∃ e, ∀ Q : Primitives, Q.hmacSha256 = P.hmacSha256 → DecryptWith Q c k = .err e) ∧
    (∀ encKeyData macKeyData i bit, k.encKey.Open = .ok encKeyData →
      NewCipher encKeyData = .ok encKeyData → k.macKey.Open = .ok macKeyData →
      macKeyData.length ≠ 0 → isMacValid P (c.IV ++ c.CT) c.MAC macKeyData = true →
      i < c.MAC.length →
      DecryptWith P { c with MAC := flipBit c.MAC i bit } k = .err "decrypt: MAC mismatch") := by
  refine ⟨DecryptWith_err_of_bad_mac P c k hT, ?_⟩
  intro e m i bit hk hb hm h2 hv hi
  have h3 : c.MAC = P.hmacSha256 m (c.IV ++ c.CT) := by simpa [isMacValid] using hv
  refine DecryptWith_mac_mismatch P _ k e m hk hm hb hT ?_ h2 ?_
  · simp only [flipBit_length]
    omega
  · show flipBit c.MAC i bit ≠ P.hmacSha256 m (c.IV ++ c.CT)
    rw [← h3]
    exact flipBit_ne c.MAC i bit hi

/-- C2, at a concrete cipher string: without its MAC it is rejected, and with bit 0 of the
first MAC byte flipped it gives the MAC mismatch. -/
theorem DecryptWith_mac_check_first_witness :
    sampleCipher.Typ = AesCbc256_HmacSha256_B64 ∧
      DecryptWith xorPrimitives sampleCipher sampleKey = .ok [1, 2, 3] ∧
      DecryptWith xorPrimitives { sampleCipher with MAC := [] } sampleKey =
        .err "decrypt: cipher string type expects a MAC" ∧
      DecryptWith xorPrimitives { sampleCipher with MAC := flipBit sampleCipher.MAC 0 0 }
        sampleKey = .err "decrypt: MAC mismatch" :=
  ⟨by decide, by decide, by decide,
    (DecryptWith_mac_check_first xorPrimitives sampleCipher sampleKey (by decide)).2
      (List.replicate 32 7) (List.replicate 32 9) 0 0 (by decide) (by decide) (by decide)
      (by decide) (by decide) (by decide)⟩

/-- C3 as stated fails for the suite without MAC: the string `sampleCipherNoMac` decrypts,
and after a change of the first byte of its CT `DecryptWith` returns plaintext again, not
a MAC mismatch; so it does after a change of its MAC field. -/
theorem DecryptWith_tamper_no_mac_suite :
    DecryptWith xorPrimitives sampleCipherNoMac sampleKey = .ok [1, 2, 3] ∧
      DecryptWith xorPrimitives { sampleCipherNoMac with CT := sampleCipherNoMac.CT.set 0 7 }
        sampleKey = .ok [0, 2, 3] ∧
      DecryptWith xorPrimitives { sampleCipherNoMac with MAC := [1] } sampleKey =
        .ok [1, 2, 3] ∧
      DecryptWith xorPrimitives { sampleCipherNoMac with MAC := [2] } sampleKey =
        .ok [1, 2, 3] := by
  decide

/-- C3, amended: for a cipher string `c` of the suite `AesCbc256_HmacSha256_B64` and a key
`k` such that `DecryptWith c k` succeeds, changing any single byte of `c.MAC` makes
`DecryptWith` return the error "decrypt: MAC mismatch", and so does changing any single
byte of `c.CT` whenever the HMAC of `IV` and the changed `CT` differs from the HMAC of
`IV` and `CT`. -/
theorem DecryptWith_tamper_hmac_suite (P : Primitives) (c : EncString)
    (k : SymmetricEncryptionKey) (p : Bytes) (hT : c.Typ = AesCbc256_HmacSha256_B64)
    (hok : DecryptWith P c k = .ok p) :
    (∀ i v, i < c.MAC.length → c.MAC.get? i ≠ some v →
      DecryptWith P { c with MAC := c.MAC.set i v } k = .err "decrypt: MAC mismatch") ∧
    (∀ i v m, k.macKey.Open = .ok m →
      P.hmacSha256 m (c.IV ++ c.CT.set i v) ≠ P.hmacSha256 m (c.IV ++ c.CT) →
      DecryptWith P { c with CT := c.CT.set i v } k = .err "decrypt: MAC mismatch") := by
  obtain ⟨e, m, hk, hm, hb, h1, h2, h3⟩ := DecryptWith_ok_hmac P c k p hT hok
  constructor
  · intro i v hi hv
    refine DecryptWith_mac_mismatch P _ k e m hk hm hb hT ?_ h2 ?_
    · simpa using h1
    · show c.MAC.set i v ≠ P.hmacSha256 m (c.IV ++ c.CT)
      rw [← h3]
      exact set_ne_self c.MAC i v hi hv
  · intro i v m2 hm2 hne
    have hmm : m2 = m := by
      rw [hm] at hm2; injection hm2 with h; exact h.symm
    subst hmm
    refine DecryptWith_mac_mismatch P _ k e m2 hk hm hb hT h1 h2 ?_
    show c.MAC ≠ P.hmacSha256 m2 (c.IV ++ c.CT.set i v)
    rw [h3]
    exact fun h => hne h.symm

/-- C3 amended, at a concrete cipher string: a changed MAC byte and a changed CT byte both
give the MAC mismatch. -/
theorem DecryptWith_tamper_hmac_suite_witness :
    DecryptWith xorPrimitives sampleCipher sampleKey = .ok [1, 2, 3] ∧
      DecryptWith xorPrimitives { sampleCipher with MAC := sampleCipher.MAC.set 31 0 }
        sampleKey = .err "decrypt: MAC mismatch" ∧
      DecryptWith xorPrimitives { sampleCipher with CT := sampleCipher.CT.set 0 7 }
        sampleKey = .err "decrypt: MAC mismatch" :=
  ⟨by decide,
    (DecryptWith_tamper_hmac_suite xorPrimitives sampleCipher sampleKey [1, 2, 3] (by decide)
      (by decide)).1 31 0 (by decide) (by decide),
    (DecryptWith_tamper_hmac_suite xorPrimitives sampleCipher sampleKey [1, 2, 3] (by decide)
      (by decide)).2 0 7 (List.replicate 32 9) (by decide) (by decide)⟩

/-- C8 as stated fails outside the suites 1 and 2: a non-null cipher string of suite 0 is
serialized to the empty text, which parses to the null cipher string, and the text of a
non-null cipher string of suite 3 is rejected by `UnmarshalText`. -/
theorem unmarshal_marshal_fails_suite_0_and_3 :
    (EncString.IsNull ⟨0, [1], [2], []⟩ = false ∧
      EncString.MarshalText ⟨0, [1], [2], []⟩ = ([], none) ∧
      EncString.UnmarshalText EncString.zero (EncString.MarshalText ⟨0, [1], [2], []⟩).1 =
        (⟨0, [], [], []⟩, none)) ∧
    (EncString.IsNull ⟨3, [1], [2], [3]⟩ = false ∧
      (EncString.MarshalText ⟨3, [1], [2], [3]⟩).2 = none ∧
      (EncString.UnmarshalText EncString.zero (EncString.MarshalText ⟨3, [1], [2], [3]⟩).1).2 =
        some "invalid cipher string type") := by
  decide

/-- C8, amended: for every cipher string `c` of the suites 1 and 2 (null or not),
`MarshalText c` succeeds and `UnmarshalText` of its output into a fresh cipher string
succeeds and yields a value equal to `c` in type, IV, CT and MAC. -/
theorem unmarshal_marshal_suite_1_2 (c : EncString)
    (ht : c.Typ = AesCbc128_HmacSha256_B64 ∨ c.Typ = AesCbc256_HmacSha256_B64) :
    (EncString.MarshalText c).2 = none ∧
      EncString.UnmarshalText EncString.zero (EncString.MarshalText c).1 = (c, none) := by
  obtain ⟨t, iv, ct, mac⟩ := c
  have h := unmarshal_marshal_mac_suite t ht iv ct mac
  exact ⟨by rw [h.1], h.2⟩

/-- C8 amended, at a cipher string of suite 1. -/
theorem unmarshal_marshal_suite_1_2_witness :
    (EncString.MarshalText ⟨1, [1, 2], [3], [4, 5, 6]⟩).2 = none ∧
      EncString.UnmarshalText EncString.zero
        (EncString.MarshalText ⟨1, [1, 2], [3], [4, 5, 6]⟩).1 =
        (⟨1, [1, 2], [3], [4, 5, 6]⟩, none) :=
  unmarshal_marshal_suite_1_2 ⟨1, [1, 2], [3], [4, 5, 6]⟩ (Or.inl rfl)

/-- C9: for every cipher string of suite `AesCbc256_HmacSha256_B64` with arbitrary IV, CT
and MAC, `MarshalText` succeeds and `UnmarshalText` of its output into a fresh cipher
string succeeds and returns the same type, IV, CT and MAC. -/
theorem unmarshal_marshal_hmac_suite (iv ct mac : Bytes) :
    (EncString.MarshalText ⟨AesCbc256_HmacSha256_B64, iv, ct, mac⟩).2 = none ∧
      EncString.UnmarshalText EncString.zero
        (EncString.MarshalText ⟨AesCbc256_HmacSha256_B64, iv, ct, mac⟩).1 =
        (⟨AesCbc256_HmacSha256_B64, iv, ct, mac⟩, none) := by
  have h := unmarshal_marshal_mac_suite AesCbc256_HmacSha256_B64 (Or.inr rfl) iv ct mac
  exact ⟨by rw [h.1], h.2⟩

/-- C4 as stated fails when the config is locked, `TryUnlock` succeeds, but the sync fails:
although the config was successfully unlocked, the user is logged in and `GetPermission`
grants, the handler is not invoked, and the outcome is not an `ActionResponse`: the gate
panics on `err.Error()` with `err == nil`. -/
theorem ensureEverything_sync_failure :
    ({ sampleEnv with GetToken := .ok "token", GetUserSymmetricKey := .error "no key" } :
        Env).tryUnlock = none ∧
      loggedIn { sampleEnv with GetToken := .ok "token", GetUserSymmetricKey := .error "no key" } ∧
      ({ sampleEnv with GetToken := .ok "token", GetUserSymmetricKey := .error "no key" } :
        Env).GetPermission .AccessVault sampleCtx = .ok true ∧
      ensureEverything .AccessVault okHandler .ListLoginsRequest
          { sampleEnv with GetToken := .ok "token", GetUserSymmetricKey := .error "no key" }
          sampleCtx lockedWorld =
        (.abort "runtime error: invalid memory address or nil pointer dereference",
          { locked := false, pinSessions := [],
            trace := [.IsLocked, .TryUnlock, .GetToken, .RefreshToken, .GetUserSymmetricKey] }) :=
  by decide

/-- C4, amended: `ensureEverything t h` evaluates the gates in the order lock, login,
approval (the events of the lock gate, then `GetMasterPasswordHash`, then `GetPermission`)
and invokes `h`, returning its result unchanged, if and only if the config is unlocked or
`TryUnlock` returns no error and the sync succeeds, the stored master password hash is
present and non-empty, and `GetPermission` returns true without error.  When `TryUnlock`
returns an error, or the login or the approval gate fails, the response is an
`ActionResponse` with success=false, and neither `h` nor a collaborator of a later gate is
invoked.  (When `TryUnlock` succeeds and the sync fails, `h` is not invoked; nothing is said
about the response.) -/
theorem ensureEverything_gates (t : SessionType) (request : IPCMessage) (env : Env)
    (ctx : CallingContext) (w : World) :
    ∃ (w1 : World) (unlock : List Event), w1.trace = w.trace ++ unlock ∧
      (∀ x ∈ unlock, x.isUnlockEvent = true) ∧
      (lockGateOpen env w → loggedIn env → env.GetPermission t ctx = .ok true →
        ∀ h : Action, ensureEverything t h request env ctx w =
          h request env ctx ((w1.log .GetMasterPasswordHash).log (.GetPermission t ctx))) ∧
      (w.locked = true → ∀ e, env.tryUnlock = some e → ∀ h : Action,
        ensureEverything t h request env ctx w = (.ok (.ActionResponse false e), w1)) ∧
      (lockGateOpen env w → ¬ loggedIn env → ∀ h : Action,
        ensureEverything t h request env ctx w =
          (.ok (.ActionResponse false "Not logged in"), w1.log .GetMasterPasswordHash)) ∧
      (lockGateOpen env w → loggedIn env → env.GetPermission t ctx ≠ .ok true →
        ∀ h : Action, ensureEverything t h request env ctx w =
          (.ok (.ActionResponse false "Polkit authorization failed required"),
            (w1.log .GetMasterPasswordHash).log (.GetPermission t ctx))) ∧
      (¬ lockGateOpen env w → Blocks (ensureEverything t) request env ctx w) := by
  obtain ⟨w1, unlock, htr, hall, hopen, herr, hblock⟩ :=
    ensureIsNotLocked_cases request env ctx w
  refine ⟨w1, unlock, htr, hall, ?_, ?_, ?_, ?_, ?_⟩
  · intro ho hli hp h
    unfold ensureEverything
    rw [hopen ho, ensureIsLoggedIn_pass _ _ _ _ _ hli, ensureBiometricsAuthorized_pass _ _ _ _ _ _ hp]
  · intro hl e he h
    unfold ensureEverything
    rw [herr hl e he]
  · intro ho hli h
    unfold ensureEverything
    rw [hopen ho, ensureIsLoggedIn_fail _ _ _ _ _ hli]
  · intro ho hli hp h
    unfold ensureEverything
    rw [hopen ho, ensureIsLoggedIn_pass _ _ _ _ _ hli, ensureBiometricsAuthorized_fail _ _ _ _ _ _ hp]
  · intro hno h h2
    unfold ensureEverything
    have hl : w.locked = true := by
      by_contra hl
      exact hno (Or.inl (by simpa using hl))
    cases hu : env.tryUnlock with
    | some e => rw [herr hl e hu, herr hl e hu]
    | none =>
      have hs : (sync env w).1 = false := by
        by_contra hs
        exact hno (Or.inr ⟨hu, by simpa using hs⟩)
      exact hblock hl hu hs _ _

/-- C4 amended, at a concrete state: unlocked, logged in and permitted, the handler runs
after the three gates; locked with a failing `TryUnlock`, the response is the failure with
the unlock error. -/
theorem ensureEverything_gates_witness :
    (∃ w1 : World, ensureEverything .AccessVault okHandler .ListLoginsRequest sampleEnv
        sampleCtx unlockedWorld =
      okHandler .ListLoginsRequest sampleEnv sampleCtx
        ((w1.log .GetMasterPasswordHash).log (.GetPermission .AccessVault sampleCtx))) ∧
    (∃ w1 : World, ensureEverything .AccessVault okHandler .ListLoginsRequest
        { sampleEnv with tryUnlock := some "no pin" } sampleCtx lockedWorld =
      (.ok (.ActionResponse false "no pin"), w1)) :=
  ⟨(ensureEverything_gates .AccessVault .ListLoginsRequest sampleEnv sampleCtx
      unlockedWorld).imp fun _ h => h.elim fun _ h => h.2.2.1 (by decide) (by decide) rfl okHandler,
    (ensureEverything_gates .AccessVault .ListLoginsRequest
      { sampleEnv with tryUnlock := some "no pin" } sampleCtx lockedWorld).imp
      fun _ h => h.elim fun _ h => h.2.2.2.1 rfl "no pin" rfl okHandler⟩

/-- C10 as stated fails on the message: when `GetPermission` denies, the approval gate
answers "Polkit authorization failed required", not "not approved". -/
theorem ensureBiometricsAuthorized_message :
    (ensureBiometricsAuthorized .AccessVault okHandler .ListLoginsRequest
        { sampleEnv with GetPermission := fun _ _ => .ok false } sampleCtx unlockedWorld).1 =
        .ok (.ActionResponse false "Polkit authorization failed required") ∧
      (ensureBiometricsAuthorized .AccessVault okHandler .ListLoginsRequest
        { sampleEnv with GetPermission := fun _ _ => .ok false } sampleCtx unlockedWorld).1 ≠
        .ok (.ActionResponse false "not approved") := by
  decide

/-- C10, amended: whenever `GetPermission` denies the caller (returns false or an error),
the approval gate returns `ActionResponse{success:false, message:"Polkit authorization
failed required"}` and does not invoke the wrapped handler: the outcome is the same for
every handler, and the only event is the call of `GetPermission`. -/
theorem ensureBiometricsAuthorized_denied (t : SessionType) (action : Action)
    (request : IPCMessage) (env : Env) (ctx : CallingContext) (w : World)
    (hdeny : env.GetPermission t ctx = .ok false ∨ ∃ e, env.GetPermission t ctx = .error e) :
    ensureBiometricsAuthorized t action request env ctx w =
      (.ok (.ActionResponse false "Polkit authorization failed required"),
        w.log (.GetPermission t ctx)) := by
  apply ensureBiometricsAuthorized_fail
  rcases hdeny with h | ⟨e, h⟩ <;> simp [h]

/-- C10 amended, for a denying `GetPermission`. -/
theorem ensureBiometricsAuthorized_denied_witness :
    ensureBiometricsAuthorized .AccessVault okHandler .ListLoginsRequest
        { sampleEnv with GetPermission := fun _ _ => .ok false } sampleCtx unlockedWorld =
      (.ok (.ActionResponse false "Polkit authorization failed required"),
        unlockedWorld.log (.GetPermission .AccessVault sampleCtx)) :=
  ensureBiometricsAuthorized_denied .AccessVault okHandler .ListLoginsRequest
    { sampleEnv with GetPermission := fun _ _ => .ok false } sampleCtx unlockedWorld
    (Or.inl rfl)

/-- C6 as stated fails: the name of `tamperedLogin` does not decrypt (MAC mismatch), and
`handleGetLoginCipher` still returns a `GetLoginResponse` with Found=true, the name
replaced by "NO NAME FOUND". -/
theorem handleGetLoginCipher_mac_mismatch_found :
    DecryptWith xorPrimitives tamperedLogin.Name sampleKey = .err "decrypt: MAC mismatch" ∧
      (handleGetLoginCipher (.GetLoginRequest tamperedLogin.ID "" "" "")
          { sampleEnv with vault := vaultOf tamperedLogin } sampleCtx unlockedWorld).1 =
        .ok (.GetLoginResponse true
          { Name := "NO NAME FOUND", Username := "alice", Password := "hunter2",
            UUID := "11111111-1111-1111-1111-111111111111", OrgaizationID := "", Notes := "",
            TwoFactorCode := "" }) := by
  decide

/-- C6, amended: a crypto failure is not fatal to the request.  For every `GetLoginRequest`
whose login and key are found, when no `DecryptWith` on a present field panics and the
consent prompter approves, `handleGetLoginCipher` returns a `GetLoginResponse` with
Found=true, in which every field whose `DecryptWith` returned an error (e.g. MAC mismatch)
has its default: "NO NAME FOUND" for the name, the empty string for username, password,
notes and the TOTP code. -/
theorem handleGetLoginCipher_crypto_failure (env : Env) (ctx : CallingContext) (w : World)
    (UUID OrgId Name Username : String) (login : Login) (cipherKey : SymmetricEncryptionKey)
    (hlookup : env.vault.GetLoginByFilter UUID OrgId Name Username = .ok login)
    (hkey : env.vault.GetKeyForCipher login = .ok cipherKey)
    (hname : login.Name.IsNull = false →
      (DecryptWith env.prims login.Name cipherKey).isAbort = false)
    (husername : login.Username.IsNull = false →
      (DecryptWith env.prims login.Username cipherKey).isAbort = false)
    (hpassword : login.Password.IsNull = false →
      (DecryptWith env.prims login.Password cipherKey).isAbort = false)
    (hnotes : ∀ n, login.Notes = some n → n.IsNull = false →
      (DecryptWith env.prims n cipherKey).isAbort = false)
    (htotp : login.Totp.IsNull = false →
      (DecryptWith env.prims login.Totp cipherKey).isAbort = false)
    (happrove : ∀ title body, env.GetApproval title body = .ok true) :
    ∃ d : DecryptedLoginCipher,
      (handleGetLoginCipher (.GetLoginRequest UUID OrgId Name Username) env ctx w).1 =
        .ok (.GetLoginResponse true d) ∧
      ((∃ e, DecryptWith env.prims login.Name cipherKey = .err e) → d.Name = "NO NAME FOUND") ∧
      ((∃ e, DecryptWith env.prims login.Username cipherKey = .err e) → d.Username = "") ∧
      ((∃ e, DecryptWith env.prims login.Password cipherKey = .err e) → d.Password = "") ∧
      (∀ n, login.Notes = some n → (∃ e, DecryptWith env.prims n cipherKey = .err e) →
        d.Notes = "") ∧
      ((∃ e, DecryptWith env.prims login.Totp cipherKey = .err e) → d.TwoFactorCode = "") := by
  obtain ⟨name, h1, h1d⟩ := decryptInto_cases env.prims login.Name cipherKey "NO NAME FOUND" hname
  obtain ⟨username, h2, h2d⟩ := decryptInto_cases env.prims login.Username cipherKey "" husername
  obtain ⟨password, h3, h3d⟩ := decryptInto_cases env.prims login.Password cipherKey "" hpassword
  have hnotes2 : (login.Notes.getD EncString.zero).IsNull = false →
      (DecryptWith env.prims (login.Notes.getD EncString.zero) cipherKey).isAbort = false := by
    cases hn : login.Notes with
    | none => intro h; simp [EncString.zero, EncString.IsNull] at h
    | some n => exact hnotes n hn
  obtain ⟨notes, h4, h4d⟩ := decryptInto_cases env.prims (login.Notes.getD EncString.zero)
    cipherKey "" hnotes2
  obtain ⟨code, w2, h5, h5d⟩ := decryptTotp_cases env login.Totp cipherKey ""
    ((w.log (.GetLoginByFilter UUID OrgId Name Username)).log (.GetKeyForCipher login.ID)) htotp
  refine ⟨⟨name, username, password, login.ID, login.OrganizationID.getD "", notes, code⟩,
    ?_, h1d, h2d, h3d, ?_, h5d⟩
  · simp [handleGetLoginCipher, hlookup, hkey, h1, h2, h3, h4, h5, happrove,
      IPCMessageFromPayload]
  · intro n hn he
    apply h4d
    simpa [hn] using he

/-- C6 amended, at the login whose name has a tampered MAC. -/
theorem handleGetLoginCipher_crypto_failure_witness :
    DecryptWith xorPrimitives tamperedLogin.Name sampleKey = .err "decrypt: MAC mismatch" ∧
      ∃ d : DecryptedLoginCipher,
        (handleGetLoginCipher (.GetLoginRequest tamperedLogin.ID "" "" "")
          { sampleEnv with vault := vaultOf tamperedLogin } sampleCtx unlockedWorld).1 =
          .ok (.GetLoginResponse true d) ∧ d.Name = "NO NAME FOUND" :=
  ⟨by decide,
    (handleGetLoginCipher_crypto_failure { sampleEnv with vault := vaultOf tamperedLogin }
      sampleCtx unlockedWorld tamperedLogin.ID "" "" "" tamperedLogin sampleKey (by decide)
      (by decide) (by decide) (by decide) (by decide) (by decide) (by decide)
      (fun _ _ => rfl)).imp fun _ h => ⟨h.1, h.2.1 ⟨"decrypt: MAC mismatch", by decide⟩⟩⟩

/-- C7 as stated fails when the handler returns before the consent prompt: with a prompter
that denies every request, a request for an unknown login is answered "login not found",
and a request for a login whose key lookup fails is answered "could not get cipher key",
not "not approved". -/
theorem handleGetLoginCipher_denied_before_prompt :
    (handleGetLoginCipher (.GetLoginRequest "no such login" "" "" "")
        { sampleEnv with GetApproval := fun _ _ => .ok false } sampleCtx unlockedWorld).1 =
        .ok (.ActionResponse false "login not found") ∧
      (handleGetLoginCipher (.GetLoginRequest sampleLogin.ID "" "" "")
        { sampleEnv with
            vault := { vaultOf sampleLogin with GetKeyForCipher := fun _ => .error "no key" },
            GetApproval := fun _ _ => .ok false } sampleCtx unlockedWorld).1 =
        .ok (.ActionResponse false "could not get cipher key") := by
  decide

/-- C7, amended: for every `GetLoginRequest` whose login and cipher key are found, whatever
the vault content and the calling context, if no `DecryptWith` on a present field panics
and the consent prompter denies or returns an error, `handleGetLoginCipher` returns exactly
`ActionResponse{success:false, message:"not approved"}`, a payload that carries none of
the decrypted name, username, password, notes or TOTP code. -/
theorem handleGetLoginCipher_denied (env : Env) (ctx : CallingContext) (w : World)
    (UUID OrgId Name Username : String) (login : Login) (cipherKey : SymmetricEncryptionKey)
    (hlookup : env.vault.GetLoginByFilter UUID OrgId Name Username = .ok login)
    (hkey : env.vault.GetKeyForCipher login = .ok cipherKey)
    (hname : login.Name.IsNull = false →
      (DecryptWith env.prims login.Name cipherKey).isAbort = false)
    (husername : login.Username.IsNull = false →
      (DecryptWith env.prims login.Username cipherKey).isAbort = false)
    (hpassword : login.Password.IsNull = false →
      (DecryptWith env.prims login.Password cipherKey).isAbort = false)
    (hnotes : ∀ n, login.Notes = some n → n.IsNull = false →
      (DecryptWith env.prims n cipherKey).isAbort = false)
    (htotp : login.Totp.IsNull = false →
      (DecryptWith env.prims login.Totp cipherKey).isAbort = false)
    (hdeny : ∀ title body, env.GetApproval title body = .ok false ∨
      ∃ e, env.GetApproval title body = .error e) :
    (handleGetLoginCipher (.GetLoginRequest UUID OrgId Name Username) env ctx w).1 =
      .ok (.ActionResponse false "not approved") := by
  obtain ⟨name, h1, _⟩ := decryptInto_cases env.prims login.Name cipherKey "NO NAME FOUND" hname
  obtain ⟨username, h2, _⟩ := decryptInto_cases env.prims login.Username cipherKey "" husername
  obtain ⟨password, h3, _⟩ := decryptInto_cases env.prims login.Password cipherKey "" hpassword
  have hnotes2 : (login.Notes.getD EncString.zero).IsNull = false →
      (DecryptWith env.prims (login.Notes.getD EncString.zero) cipherKey).isAbort = false := by
    cases hn : login.Notes with
    | none => intro h; simp [EncString.zero, EncString.IsNull] at h
    | some n => exact hnotes n hn
  obtain ⟨notes, h4, _⟩ := decryptInto_cases env.prims (login.Notes.getD EncString.zero)
    cipherKey "" hnotes2
  obtain ⟨code, w2, h5, _⟩ := decryptTotp_cases env login.Totp cipherKey ""
    ((w.log (.GetLoginByFilter UUID OrgId Name Username)).log (.GetKeyForCipher login.ID)) htotp
  rcases hdeny "Approve Credential Access" (getLoginPrompt ctx username name) with h | ⟨e, h⟩
  · simp [handleGetLoginCipher, hlookup, hkey, h1, h2, h3, h4, h5, h, IPCMessageFromPayload]
  · simp [handleGetLoginCipher, hlookup, hkey, h1, h2, h3, h4, h5, h, IPCMessageFromPayload]

/-- C7 amended, with a prompter that denies: the response to a request for `sampleLogin`,
whose name, username and password decrypt, is "not approved". -/
theorem handleGetLoginCipher_denied_witness :
    (handleGetLoginCipher (.GetLoginRequest sampleLogin.ID "" "" "")
        { sampleEnv with GetApproval := fun _ _ => .ok false } sampleCtx unlockedWorld).1 =
      .ok (.ActionResponse false "not approved") :=
  handleGetLoginCipher_denied { sampleEnv with GetApproval := fun _ _ => .ok false } sampleCtx
    unlockedWorld sampleLogin.ID "" "" "" sampleLogin sampleKey (by decide) (by decide)
    (by decide) (by decide) (by decide) (by decide) (by decide) (fun _ _ => Or.inl rfl)

/-- C5 as stated fails for `GetBiometricsKeyRequest`: its registered action has no approval
gate, so with a `GetPermission` that denies every caller the handler is still invoked (it
returns the key) and `GetPermission` is not even queried. -/
theorem registry_biometrics_without_approval_gate :
    (AgentActionsRegistry.Get .GetBiometricsKeyRequest).map (fun a =>
        a .GetBiometricsKeyRequest { sampleEnv with GetPermission := fun _ _ => .ok false }
          sampleCtx unlockedWorld) =
      some (.ok (.GetBiometricsKeyResponse "AQID"),
        { locked := false, pinSessions := [],
          trace := [.IsLocked, .GetMasterPasswordHash, .VerifyPinSession sampleCtx,
            .CheckBiometrics .BrowserBiometrics,
            .GetApproval "Approve Credential Access"
              "alice on terminal>bash>client is trying to access your vault encryption key for browser biometric unlock.",
            .GetMasterKey] }) := by
  decide

/-- C5, amended: the actions registered for `GetLoginRequest` and `ListLoginsRequest` are
the handlers behind the full three-gate stack, whose handler is never invoked when the
vault is locked and cannot be unlocked, when the agent is not logged in, or when
`GetPermission` denies the caller; the action registered for `GetBiometricsKeyRequest` is
the handler behind the lock and login gates only, whose handler is never invoked when the
vault is locked and cannot be unlocked or when the agent is not logged in. -/
theorem registry_gate_stacks :
    AgentActionsRegistry.Get .GetLoginRequest =
        some (ensureEverything .AccessVault handleGetLoginCipher) ∧
      AgentActionsRegistry.Get .ListLoginsRequest =
        some (ensureEverything .AccessVault handleListLoginsRequest) ∧
      AgentActionsRegistry.Get .GetBiometricsKeyRequest =
        some (ensureIsNotLocked (ensureIsLoggedIn handleGetBiometricsKey)) ∧
      (∀ (request : IPCMessage) (env : Env) (ctx : CallingContext) (w : World),
        (¬ lockGateOpen env w ∨ ¬ loggedIn env ∨
            env.GetPermission .AccessVault ctx ≠ .ok true) →
          Blocks (ensureEverything .AccessVault) request env ctx w) ∧
      (∀ (request : IPCMessage) (env : Env) (ctx : CallingContext) (w : World),
        (¬ lockGateOpen env w ∨ ¬ loggedIn env) →
          Blocks (fun a => ensureIsNotLocked (ensureIsLoggedIn a)) request env ctx w) :=
  ⟨rfl, rfl, rfl, ensureEverything_blocks .AccessVault, lock_login_blocks⟩

/-- C11 as stated fails: on a locked config whose `TryUnlock` succeeds and whose full sync
fails, `ensureIsNotLocked` does not return the result of the wrapped action and installs no
PIN session. -/
theorem ensureIsNotLocked_sync_failure_not_forwarded :
    ({ sampleEnv with GetToken := .ok "token", DoFullSync := some "sync failed" } :
        Env).tryUnlock = none ∧
      (sync { sampleEnv with GetToken := .ok "token", DoFullSync := some "sync failed" }
        lockedWorld).1 = false ∧
      (ensureIsNotLocked okHandler .ListLoginsRequest
        { sampleEnv with GetToken := .ok "token", DoFullSync := some "sync failed" }
        sampleCtx lockedWorld).1 ≠ .ok (.ActionResponse true "handled") ∧
      (ensureIsNotLocked okHandler .ListLoginsRequest
        { sampleEnv with GetToken := .ok "token", DoFullSync := some "sync failed" }
        sampleCtx lockedWorld).2.pinSessions = [] := by
  decide

/-- C11, amended: failure to sync fails the unlock gate.  When the config is locked and
`TryUnlock` succeeds (nil error): if the remote sync reports failure, `ensureIsNotLocked`
installs no PIN session and does not forward to the wrapped action (its outcome is the same
for every action); if the sync reports success, it installs the PIN session of the caller
and forwards to the wrapped action, returning that action's result. -/
theorem ensureIsNotLocked_sync_gate (action : Action) (request : IPCMessage) (env : Env)
    (ctx : CallingContext) (w : World) (hl : w.locked = true) (hu : env.tryUnlock = none) :
    ((sync env w).1 = false →
      Blocks ensureIsNotLocked request env ctx w ∧
      (ensureIsNotLocked action request env ctx w).2.pinSessions = w.pinSessions ∧
      ∃ new, (ensureIsNotLocked action request env ctx w).2.trace = w.trace ++ new ∧
        ∀ c, Event.CreatePinSession c ∉ new) ∧
    ((sync env w).1 = true →
      ∃ w1, w1.pinSessions = ctx :: w.pinSessions ∧
        ensureIsNotLocked action request env ctx w = action request env ctx w1) := by
  constructor
  · intro hs
    refine ⟨?_, ?_, ?_⟩
    · intro a a2
      rw [ensureIsNotLocked_sync_failed a request env ctx w hl hu hs,
        ensureIsNotLocked_sync_failed a2 request env ctx w hl hu hs]
    · rw [ensureIsNotLocked_sync_failed action request env ctx w hl hu hs]
      simp [sync_pinSessions, TryUnlock_pinSessions, World.log]
    · rw [ensureIsNotLocked_sync_failed action request env ctx w hl hu hs]
      obtain ⟨new, hnew, hall⟩ := sync_trace_no_pin env (TryUnlock env (w.log .IsLocked)).2
      refine ⟨[.IsLocked, .TryUnlock] ++ new, ?_, ?_⟩
      · show (sync env (TryUnlock env (w.log .IsLocked)).2).2.trace = _
        rw [hnew, TryUnlock_trace]
        simp [World.log]
      · intro c hc
        simp only [List.cons_append, List.nil_append, List.mem_cons] at hc
        rcases hc with hc | hc | hc
        · cases hc
        · cases hc
        · exact hall c hc
  · intro hs
    refine ⟨_, ?_, ensureIsNotLocked_sync_ok action request env ctx w hl hu hs⟩
    simp [CreatePinSession, sync_pinSessions, TryUnlock_pinSessions, World.log]

/-- C11 amended, at concrete collaborators: with a failing full sync no PIN session is
installed, with nothing to sync the action runs with the PIN session of the caller. -/
theorem ensureIsNotLocked_sync_gate_witness :
    (ensureIsNotLocked okHandler .ListLoginsRequest syncFailEnv sampleCtx
        lockedWorld).2.pinSessions = lockedWorld.pinSessions ∧
      ∃ w1, w1.pinSessions = sampleCtx :: lockedWorld.pinSessions ∧
        ensureIsNotLocked okHandler .ListLoginsRequest sampleEnv sampleCtx lockedWorld =
          okHandler .ListLoginsRequest sampleEnv sampleCtx w1 :=
  ⟨((ensureIsNotLocked_sync_gate okHandler .ListLoginsRequest syncFailEnv sampleCtx lockedWorld
      rfl rfl).1 (by decide)).2.1,
    (ensureIsNotLocked_sync_gate okHandler .ListLoginsRequest sampleEnv sampleCtx lockedWorld
      rfl rfl).2 (by decide)⟩

/-- C12 fails on the code: on a locked config whose `TryUnlock` returns `nil` and whose
sync fails, `ensureIsNotLocked` (for every wrapped action) does not return an
`ActionResponse` with the message "locked": it evaluates `err.Error()` on the absent error
and panics. -/
theorem ensureIsNotLocked_nil_error_panic :
    syncFailEnv.tryUnlock = none ∧ (sync syncFailEnv lockedWorld).1 = false ∧
      ∀ h : Action, ensureIsNotLocked h .GetBiometricsKeyRequest syncFailEnv sampleCtx
          lockedWorld =
        (.abort "runtime error: invalid memory address or nil pointer dereference",
          { locked := false, pinSessions := [],
            trace := [.IsLocked, .TryUnlock, .GetToken, .RefreshToken, .GetUserSymmetricKey,
              .DoFullSync] }) :=
  ⟨rfl, by decide, fun h => by
    rw [ensureIsNotLocked_sync_failed h _ syncFailEnv sampleCtx lockedWorld rfl rfl (by decide)]
    decide⟩

/-- C15: for every cipher string whose type is neither `AesCbc256_B64` (0) nor
`AesCbc256_HmacSha256_B64` (2), and for every key, `DecryptWith` returns an error and no
plaintext; when the keys open and AES accepts the encryption key, the error is the one for
an unsupported cipher type. -/
theorem DecryptWith_unsupported_type (P : Primitives) (c : EncString)
    (k : SymmetricEncryptionKey) (h0 : c.Typ ≠ AesCbc256_B64)
    (h2 : c.Typ ≠ AesCbc256_HmacSha256_B64) :
    (∃ e, DecryptWith P c k = .err e) ∧
    (∀ encKeyData macKeyData, k.encKey.Open = .ok encKeyData →
      k.macKey.Open = .ok macKeyData → NewCipher encKeyData = .ok encKeyData →
      DecryptWith P c k = .err ("decrypt: unsupported cipher type " ++ toString c.Typ)) := by
  constructor
  · unfold DecryptWith
    split
    · exact ⟨_, rfl⟩
    · split
      · exact ⟨_, rfl⟩
      · split
        · exact ⟨_, rfl⟩
        · simp [h0, h2]
  · intro e m hk hm hb
    simp [DecryptWith, hk, hm, hb, h0, h2]

/-- C15, at cipher strings of the suites 1, 3 and 5. -/
theorem DecryptWith_unsupported_type_witness :
    (∃ e, DecryptWith xorPrimitives { sampleCipher with Typ := 1 } sampleKey = .err e) ∧
      (∃ e, DecryptWith xorPrimitives { sampleCipher with Typ := 3 } sampleKey = .err e) ∧
      (∃ e, DecryptWith xorPrimitives { sampleCipher with Typ := 5 } sampleKey = .err e) :=
  ⟨(DecryptWith_unsupported_type xorPrimitives { sampleCipher with Typ := 1 } sampleKey
      (by decide) (by decide)).1,
    (DecryptWith_unsupported_type xorPrimitives { sampleCipher with Typ := 3 } sampleKey
      (by decide) (by decide)).1,
    (DecryptWith_unsupported_type xorPrimitives { sampleCipher with Typ := 5 } sampleKey
      (by decide) (by decide)).1⟩

/-- C16 as stated fails: the null cipher string of suite 2 is serialized to the text
`2.||`, not to the empty text. -/
theorem MarshalText_null_suite_2 :
    EncString.IsNull ⟨AesCbc256_HmacSha256_B64, [], [], []⟩ = true ∧
      EncString.MarshalText ⟨AesCbc256_HmacSha256_B64, [], [], []⟩ =
        ([50, 46, 124, 124], none) := by
  decide

/-- C16, amended: for every cipher string in the null state (IV, CT and MAC all empty),
`MarshalText` returns the empty text when its type is 0, and the text `<type>.||` when its
type is not 0. -/
theorem MarshalText_null (c : EncString) (hn : c.IsNull = true) :
    (c.Typ = 0 → c.MarshalText = ([], none)) ∧
    (c.Typ ≠ 0 → c.MarshalText = (Itoa c.Typ ++ [dot, pipe, pipe], none)) := by
  obtain ⟨t, iv, ct, mac⟩ := c
  simp only [EncString.IsNull, Bool.and_eq_true, decide_eq_true_eq, List.length_eq_zero] at hn
  obtain ⟨⟨rfl, rfl⟩, rfl⟩ := hn
  constructor
  · intro h
    simp only at h
    simp [EncString.MarshalText, h]
  · intro h
    simp only at h
    simp [EncString.MarshalText, h, HasMAC, AesCbc256_B64, b64encode]

/-- C16 amended, at the null cipher strings of the suites 0 and 1. -/
theorem MarshalText_null_witness :
    EncString.MarshalText ⟨0, [], [], []⟩ = ([], none) ∧
      EncString.MarshalText ⟨1, [], [], []⟩ = (Itoa 1 ++ [dot, pipe, pipe], none) :=
  ⟨(MarshalText_null ⟨0, [], [], []⟩ rfl).1 rfl, (MarshalText_null ⟨1, [], [], []⟩ rfl).2
    (by decide)⟩

/-- C17 as stated fails: the two-part text `0.AQ==|Ag==` (IV `[1]`, CT `[2]`) is rejected
by `UnmarshalText`. -/
theorem UnmarshalText_two_parts_rejected :
    [48, dot] ++ b64encode [1] ++ [pipe] ++ b64encode [2] =
        [48, 46, 65, 81, 61, 61, 124, 65, 103, 61, 61] ∧
      EncString.UnmarshalText EncString.zero
          [48, 46, 65, 81, 61, 61, 124, 65, 103, 61, 61] =
        (⟨0, [], [], []⟩, some "invalid cipher string format") := by
  decide

/-- C17, amended: for the suite without MAC (type 0), `UnmarshalText` accepts only the
three-part encoding.  For all byte sequences `iv` and `ct`, parsing
`"0." + b64(iv) + "|" + b64(ct) + "|" + t`, for any text `t` without `|`, into a fresh
cipher string succeeds and yields type 0, IV = `iv`, CT = `ct` and an empty MAC (`t` is not
decoded), and parsing the two-part encoding `"0." + b64(iv) + "|" + b64(ct)` fails with
"invalid cipher string format". -/
theorem UnmarshalText_suite_0 (iv ct : Bytes) :
    (∀ t : Bytes, pipe ∉ t →
      EncString.UnmarshalText EncString.zero
          ([48, dot] ++ b64encode iv ++ [pipe] ++ b64encode ct ++ [pipe] ++ t) =
        (⟨AesCbc256_B64, iv, ct, []⟩, none)) ∧
    EncString.UnmarshalText EncString.zero
        ([48, dot] ++ b64encode iv ++ [pipe] ++ b64encode ct) =
      (⟨AesCbc256_B64, [], [], []⟩, some "invalid cipher string format") := by
  have hA : Atoi [48] = .ok 0 := by decide
  constructor
  · intro t ht
    have hsplit := Split_three_cons (b64encode iv) (b64encode ct) t
      (pipe_not_mem_b64encode iv) (pipe_not_mem_b64encode ct) ht
    have hidx : IndexByte ([48, dot] ++ b64encode iv ++ [pipe] ++ b64encode ct ++ [pipe] ++ t)
        dot = 1 := by
      simp [IndexByte, dot, List.indexOf_cons]
    simp only [EncString.UnmarshalText, hidx]
    simp [hA, AesCbc128_HmacSha256_B64, AesCbc256_HmacSha256_B64, AesCbc256_B64, HasMAC,
      EncString.zero, hsplit, b64decode_b64encode]
  · have hsplit := Split_two (b64encode iv) (b64encode ct)
      (pipe_not_mem_b64encode iv) (pipe_not_mem_b64encode ct)
    have hidx : IndexByte ([48, dot] ++ b64encode iv ++ [pipe] ++ b64encode ct) dot = 1 := by
      simp [IndexByte, dot, List.indexOf_cons]
    simp only [EncString.UnmarshalText, hidx]
    simp [hA, AesCbc128_HmacSha256_B64, AesCbc256_HmacSha256_B64, AesCbc256_B64,
      EncString.zero, hsplit]

/-- C19: `EncryptWith` returns an error for every `typ` other than `AesCbc256_B64` and
`AesCbc256_HmacSha256_B64`; whenever it succeeds on data `d`, the result has type `typ`, an
IV of exactly 16 bytes, a CT whose length is the smallest multiple of 16 strictly greater
than `len(d)`, and a MAC equal to HMAC-SHA256(macKey, IV followed by CT), of 32 bytes, when
`typ` is the HMAC suite and an empty MAC otherwise. -/
theorem EncryptWith_result (P : Primitives) (hP : P.Lawful)
    (reader : Nat → Except String Bytes) (d : Bytes) (typ : EncStringType)
    (k : SymmetricEncryptionKey) :
    ((typ ≠ AesCbc256_B64 ∧ typ ≠ AesCbc256_HmacSha256_B64) →
      ∃ s e, EncryptWith P reader d typ k = .ok (s, some e)) ∧
    (∀ c, EncryptWith P reader d typ k = .ok (c, none) →
      c.Typ = typ ∧ c.IV.length = 16 ∧
      (16 ∣ c.CT.length ∧ d.length < c.CT.length ∧ c.CT.length ≤ d.length + 16) ∧
      (typ = AesCbc256_HmacSha256_B64 →
        ∃ m, k.macKey.Open = .ok m ∧ c.MAC = P.hmacSha256 m (c.IV ++ c.CT) ∧
          c.MAC.length = 32) ∧
      (typ ≠ AesCbc256_HmacSha256_B64 → c.MAC = [])) := by
  constructor
  · rintro ⟨h0, h2⟩
    unfold EncryptWith
    split
    · exact ⟨_, _, rfl⟩
    · split
      · exact ⟨_, _, rfl⟩
      · simp [h0, h2]
  · intro c h
    obtain ⟨encKeyData, macKeyData, iv, ct, _, hm, _, _, hiv, hct, _, rfl⟩ :=
      EncryptWith_ok P reader d typ k c h
    obtain ⟨_, hmod, hlen, _⟩ := CBCEncrypt_ok P hP _ _ _ _ hct
    have hivl := ReadFull_length reader BlockSize iv hiv
    have hpad : (padPKCS7 d BlockSize).length = d.length + (16 - d.length % 16) := by
      simp [padPKCS7, BlockSize]
    refine ⟨rfl, hivl, ⟨?_, ?_, ?_⟩, ?_, ?_⟩
    · show 16 ∣ ct.length
      rw [hlen]
      exact Nat.dvd_of_mod_eq_zero hmod
    · show d.length < ct.length
      rw [hlen, hpad]
      omega
    · show ct.length ≤ d.length + 16
      rw [hlen, hpad]
      omega
    · intro ht
      exact ⟨macKeyData, hm, by simp [ht], by simp [ht, hP.hmac_length]⟩
    · intro ht
      simp [ht]

/-- C19, at a concrete plaintext of three bytes: the CT has 16 bytes, the MAC 32. -/
theorem EncryptWith_result_witness :
    sampleCipher.Typ = AesCbc256_HmacSha256_B64 ∧ sampleCipher.IV.length = 16 ∧
      (16 ∣ sampleCipher.CT.length ∧ [1, 2, 3].length < sampleCipher.CT.length ∧
        sampleCipher.CT.length ≤ [1, 2, 3].length + 16) ∧
      sampleCipher.MAC.length = 32 :=
  have h := (EncryptWith_result xorPrimitives xorPrimitives_lawful zeroReader [1, 2, 3]
    AesCbc256_HmacSha256_B64 sampleKey).2 sampleCipher (by decide)
  ⟨h.1, h.2.1, h.2.2.1, (h.2.2.2.1 rfl).elim fun _ hm => hm.2.2⟩

/-- C20 fails on the code: the text `0.AAAA|AAAA|` parses to a cipher string of the accepted
suite 0 with an IV of three bytes, on which `DecryptWith`, with a 32-byte key and whatever
the primitives, panics in `cipher.NewCBCDecrypter`; with an IV of 16 bytes and a CT of three
bytes it panics in `CryptBlocks`. -/
theorem DecryptWith_cbc_panic :
    EncString.UnmarshalText EncString.zero [48, 46, 65, 65, 65, 65, 124, 65, 65, 65, 65, 124] =
        (shortIvCipher, none) ∧
      (∀ P : Primitives, DecryptWith P shortIvCipher sampleKey =
        .abort "cipher.NewCBCDecrypter: IV length must equal block size") ∧
      (∀ P : Primitives,
        DecryptWith P { shortIvCipher with IV := List.replicate 16 0 } sampleKey =
          .abort "crypto/cipher: input not full blocks") :=
  ⟨by decide, fun _ => rfl, fun _ => rfl⟩

/-- C13: `handleGetBiometricsKey` returns a `GetBiometricsKeyResponse`, whose key is then
the standard padded base64 text of the master key, if and only if (a PIN session of the
caller exists or the OS-auth backend approves the `BrowserBiometrics` check), the consent
prompter approves without error, and `GetMasterKey` succeeds; when either check denies, the
response is `ActionResponse{success:false, message:"not approved"}`; and when a PIN session
of the caller exists the OS-auth backend is not invoked. -/
theorem handleGetBiometricsKey_spec (request : IPCMessage) (env : Env) (ctx : CallingContext)
    (w : World) :
    (∀ key, (handleGetBiometricsKey request env ctx w).1 = .ok (.GetBiometricsKeyResponse key) ↔
      ((ctx ∈ w.pinSessions ∨ env.CheckBiometrics .BrowserBiometrics = true) ∧
        env.GetApproval "Approve Credential Access" (biometricsPrompt ctx) = .ok true ∧
        ∃ masterKey, env.GetMasterKey = .ok masterKey ∧
          key = bytesToString (b64encode masterKey))) ∧
    ((¬ (ctx ∈ w.pinSessions ∨ env.CheckBiometrics .BrowserBiometrics = true) ∨
        env.GetApproval "Approve Credential Access" (biometricsPrompt ctx) ≠ .ok true) →
      (handleGetBiometricsKey request env ctx w).1 =
        .ok (.ActionResponse false "not approved")) ∧
    (ctx ∈ w.pinSessions →
      ∃ new, (handleGetBiometricsKey request env ctx w).2.trace = w.trace ++ new ∧
        ∀ t, Event.CheckBiometrics t ∉ new) := by
  by_cases hp : ctx ∈ w.pinSessions
  · rw [handleGetBiometricsKey_pin request env ctx w hp]
    rcases ha : env.GetApproval "Approve Credential Access" (biometricsPrompt ctx) with
      e | (_ | _)
    · exact ⟨by simp, by simp, fun _ => ⟨_, rfl, by simp⟩⟩
    · exact ⟨by simp, by simp, fun _ => ⟨_, rfl, by simp⟩⟩
    · cases hm : env.GetMasterKey with
      | error e => exact ⟨by simp, by simp [hp], fun _ => ⟨_, rfl, by simp⟩⟩
      | ok mk =>
        refine ⟨?_, by simp [hp], fun _ => ⟨_, rfl, by simp⟩⟩
        intro key
        simp only [Res.ok.injEq, Payload.GetBiometricsKeyResponse.injEq, hp, true_or, true_and,
          Except.ok.injEq, exists_eq_left']
        exact eq_comm
  · rw [handleGetBiometricsKey_no_pin request env ctx w hp]
    cases hb : env.CheckBiometrics .BrowserBiometrics with
    | false => exact ⟨by simp [hp], by simp, fun h => absurd h hp⟩
    | true =>
      rcases ha : env.GetApproval "Approve Credential Access" (biometricsPrompt ctx) with
        e | (_ | _)
      · exact ⟨by simp, by simp, fun h => absurd h hp⟩
      · exact ⟨by simp, by simp, fun h => absurd h hp⟩
      · cases hm : env.GetMasterKey with
        | error e => exact ⟨by simp, by simp, fun h => absurd h hp⟩
        | ok mk =>
          refine ⟨?_, by simp, fun h => absurd h hp⟩
          intro key
          simp only [if_true, Res.ok.injEq, Payload.GetBiometricsKeyResponse.injEq, or_true,
            true_and, Except.ok.injEq, exists_eq_left']
          exact eq_comm

/-- C13, with a PIN session of the caller and an OS-auth backend that would deny: the
response carries the base64 text of the master key `[1, 2, 3]`. -/
theorem handleGetBiometricsKey_spec_witness :
    (handleGetBiometricsKey .GetBiometricsKeyRequest
        { sampleEnv with CheckBiometrics := fun _ => false } sampleCtx
        { unlockedWorld with pinSessions := [sampleCtx] }).1 =
      .ok (.GetBiometricsKeyResponse "AQID") :=
  ((handleGetBiometricsKey_spec .GetBiometricsKeyRequest
      { sampleEnv with CheckBiometrics := fun _ => false } sampleCtx
      { unlockedWorld with pinSessions := [sampleCtx] }).1 "AQID").2
    ⟨Or.inl (by decide), rfl, [1, 2, 3], rfl, by decide⟩

/-- C18 as stated fails: on a text of one byte `DecryptWithAsymmetric` panics on the slice
`s[2:]` instead of reporting an error, and on the text `12.QUFB` it does not decode the
remainder `QUFB` after the first `.` but the text `.QUFB` after the first two bytes, which
is not base64. -/
theorem DecryptWithAsymmetric_prefix :
    DecryptWithAsymmetric idRsa [52] sampleAsymmetricKey =
        .abort "runtime error: slice bounds out of range" ∧
      b64decode [81, 85, 70, 66] = .ok [65, 65, 65] ∧
      DecryptWithAsymmetric idRsa [49, 50, 46, 81, 85, 70, 66] sampleAsymmetricKey =
        .err "illegal base64 data" := by
  decide

/-- C18, amended: for every byte string `s` of at least two bytes, `DecryptWithAsymmetric`
(when the key opens and parses as an RSA key) drops the first two bytes of `s`, whatever
they are, and base64-decodes the remainder: on `c0 c1` followed by the base64 text of `raw`
it returns what RSA-OAEP decryption gives for `raw`, and when the remainder is not base64
it returns the error of the decoder. -/
theorem DecryptWithAsymmetric_two_bytes (R : RsaPrimitives) (k : AsymmetricEncryptionKey)
    (key privateKey : Bytes) (c0 c1 : Byte) (hk : k.encKey.Open = .ok key)
    (hp : R.ParsePKCS8PrivateKey key = .ok (some privateKey)) :
    (∀ raw, DecryptWithAsymmetric R (c0 :: c1 :: b64encode raw) k =
      match R.DecryptOAEP privateKey raw with
      | .error e => .err e
      | .ok res => .ok res) ∧
    (∀ rest e, b64decode rest = .error e →
      DecryptWithAsymmetric R (c0 :: c1 :: rest) k = .err e) := by
  constructor
  · intro raw
    simp [DecryptWithAsymmetric, hk, hp, b64decode_b64encode]
  · intro rest e he
    simp [DecryptWithAsymmetric, hk, hp, he]

/-- C18 amended, at the token `4.QUFB`: the bytes `AAA` reach the RSA decryption. -/
theorem DecryptWithAsymmetric_two_bytes_witness :
    DecryptWithAsymmetric idRsa (52 :: 46 :: b64encode [65, 65, 65]) sampleAsymmetricKey =
      .ok [65, 65, 65] :=
  (DecryptWithAsymmetric_two_bytes idRsa sampleAsymmetricKey [1, 2, 3] [1, 2, 3] 52 46 rfl
    rfl).1 [65, 65, 65]

/-- C14 fails on the code: with a vault that holds a login whose name is a cipher string of
suite 0 with an IV of three bytes, followed by `sampleLogin`, the approved
`handleListLoginsRequest` does not skip the first login and list the second: it panics in
`cipher.NewCBCDecrypter`, while the vault with `sampleLogin` alone is listed. -/
theorem handleListLoginsRequest_panic :
    (handleListLoginsRequest .ListLoginsRequest
        { sampleEnv with vault := vaultOfLogins [shortIvLogin, sampleLogin] } sampleCtx
        unlockedWorld).1 =
        .abort "cipher.NewCBCDecrypter: IV length must equal block size" ∧
      (handleListLoginsRequest .ListLoginsRequest
        { sampleEnv with vault := vaultOfLogins [sampleLogin] } sampleCtx unlockedWorld).1 =
        .ok (.GetLoginsResponse true
          [{ Name := "example.com", Username := "alice", Password := "",
             UUID := "11111111-1111-1111-1111-111111111111", OrgaizationID := "", Notes := "",
             TwoFactorCode := "" }]) := by
  decide

end Goldwarden
